import Mathlib

/-!
# Verification of the f2clipboard merge-resolution and redaction core

This file gives a shallow embedding, in Lean 4, of the design-relevant core of
the `f2clipboard` repository:

* `src/f2clipboard/secret.py` — the regex-based secret redactor
  (`SECRET_PATTERNS` / `redact_secrets`);
* `src/f2clipboard/llm.py` — the LLM patch-suggestion client
  (`generate_conflict_patch`);
* `src/f2clipboard/merge_checks.py` — the validation runner
  (`merge_checks_command`, `_parse_git_status`, `_collect_modified_files`);
* `src/f2clipboard/merge_resolve.py` — the merge-resolution orchestrator
  (`merge_resolve_command` and its helpers).

Modelling conventions:

* Every external effect (subprocess, HTTP call, LLM call) is mediated by a
  `World` record of oracles giving the observable outcome of each call site
  (exit code, stdout, stderr, HTTP result).  Each modelled function returns a
  value together with the ordered list of `Event`s it produced: external
  commands invoked, provider contacts, and `typer.echo` messages (split into
  stdout and stderr channels).  `raise typer.Exit(code=k)` is modelled as
  `Except.error k`.
* Python strings are Lean `String`s; character classes of the regexes
  (`\w`, `\s`, `\d`, `str.isdigit`, `str.lower`) are modelled at ASCII level,
  which covers every string the repository itself produces or tests.
* Python truthiness of `str | None` values (`if token:`) is `pyTruthy`:
  `None` and the empty string are falsy.
* Each regex of `SECRET_PATTERNS` is embedded as an executable matcher with
  the leftmost-match/greedy-quantifier semantics of Python `re.sub`, and
  `redact_secrets` applies them in the source order.
-/

/-! ## Python string primitives -/

/-- ASCII whitespace, the characters matched by Python `\s` and stripped by
`str.strip()` on the ASCII plane. -/
def isPyWs (c : Char) : Bool :=
  c = ' ' || c = '\t' || c = '\n' || c = '\x0d' || c = '\x0b' || c = '\x0c'

/-- Python `str.strip()` on a character list. -/
def pyStripL (l : List Char) : List Char :=
  ((l.dropWhile isPyWs).reverse.dropWhile isPyWs).reverse

/-- Python `str.strip()`. -/
def pyStrip (s : String) : String :=
  ⟨pyStripL s.data⟩

/-- Python truthiness of a `str | None` value: `None` and `""` are falsy. -/
def pyTruthy : Option String → Bool
  | none => false
  | some s => !(s = "")

/-- Python `message or fallback` for strings: the fallback when empty. -/
def strOr (s fallback : String) : String :=
  if s = "" then fallback else s

/-- Python `code or 1` for exit codes: `1` when the code is `0`. -/
def orOne (n : Int) : Int :=
  if n = 0 then 1 else n

/-- Length of the maximal run of characters satisfying `p` (the text consumed
by a greedy `[class]*` at the head of `l`). -/
def runLen (p : Char → Bool) (l : List Char) : Nat :=
  (l.takeWhile p).length

/-- Match a literal character sequence at the head of `l`, returning the rest.
Comparison short-circuits at the first mismatching character. -/
def dropLit : List Char → List Char → Option (List Char)
  | [], l => some l
  | _ :: _, [] => none
  | p :: ps, c :: cs => if c = p then dropLit ps cs else none

/-- Case-insensitive variant of `dropLit` (the pattern is given lowercase),
modelling a `(?i)` literal over ASCII. -/
def ciDropLit : List Char → List Char → Option (List Char)
  | [], l => some l
  | _ :: _, [] => none
  | p :: ps, c :: cs => if c.toLower = p then ciDropLit ps cs else none

/-! ## `secret.py`: character classes of `SECRET_PATTERNS` -/

/-- `[A-Za-z0-9]`. -/
def isAlnum (c : Char) : Bool :=
  c.isAlpha || c.isDigit

/-- Python `\w` at ASCII level: `[A-Za-z0-9_]`. -/
def isWordChar (c : Char) : Bool :=
  isAlnum c || c = '_'

/-- `[\w-]`, the key class of the assignment pattern. -/
def isKeyChar (c : Char) : Bool :=
  isWordChar c || c = '-'

/-- `[A-Za-z0-9-]`, the Slack token body class. -/
def isSlackChar (c : Char) : Bool :=
  isAlnum c || c = '-'

/-- `[0-9A-Z]`, the AWS access-key body class. -/
def isUpperDigit (c : Char) : Bool :=
  ('A' ≤ c && c ≤ 'Z') || c.isDigit

/-- `[A-Za-z0-9._-]` = `[A-Za-z0-9-_.]`, the class of the Bearer token body
and of the assignment-pattern value. -/
def isValueChar (c : Char) : Bool :=
  isAlnum c || c = '.' || c = '_' || c = '-'

/-- The `gh[oprsu]_` kind character. -/
def isGhKind (c : Char) : Bool :=
  c = 'o' || c = 'p' || c = 'r' || c = 's' || c = 'u'

/-! ## `secret.py`: the `_repl` callback -/

/-- The non-named-group side of `_repl` in `redact_secrets`: chooses a
placeholder by testing the matched token's text, in the source order. -/
def replForToken (token : List Char) : List Char :=
  if (dropLit ['g', 'h'] token).isSome
      && (match token with
          | _ :: _ :: c :: u :: _ => isGhKind c && u = '_'
          | _ => false) then
    token.take 3 ++ "_REDACTED".data
  else if (dropLit "github_pat_".data token).isSome then
    "github_pat_REDACTED".data
  else if (dropLit "sk-".data token).isSome then
    "sk-REDACTED".data
  else if (dropLit "xox".data token).isSome then
    token.takeWhile (fun c => !(c = '-')) ++ "-REDACTED".data
  else if (dropLit "AKIA".data token).isSome || (dropLit "ASIA".data token).isSome then
    token.take 4 ++ "_REDACTED".data
  else if (ciDropLit "bearer ".data token).isSome then
    "Bearer ***".data
  else
    "***".data

/-! ## `secret.py`: one matcher per entry of `SECRET_PATTERNS`

Each matcher, applied at a position of the text, returns `some (n, r)` when
the regex matches there, where `n ≥ 1` is the length of the match and `r` the
replacement text produced by `_repl`, and `none` otherwise. -/

/-- `gh[oprsu]_[A-Za-z0-9]{36}`. -/
def ghMatcher (l : List Char) : Option (Nat × List Char) :=
  match l with
  | g :: rest =>
    if g = 'g' then
      match rest with
      | h :: rest₁ =>
        if h = 'h' then
          match rest₁ with
          | c :: rest₂ =>
            if isGhKind c then
              match rest₂ with
              | u :: rest₃ =>
                if u = '_' then
                  if 36 ≤ runLen isAlnum rest₃ then
                    some (40, replForToken (l.take 40))
                  else none
                else none
              | [] => none
            else none
          | [] => none
        else none
      | [] => none
    else none
  | [] => none

/-- `github_pat_[A-Za-z0-9_]{22,}` (greedy body). -/
def githubPatMatcher (l : List Char) : Option (Nat × List Char) :=
  match dropLit "github_pat_".data l with
  | none => none
  | some rest =>
    let n := runLen isWordChar rest
    if 22 ≤ n then some (11 + n, replForToken (l.take (11 + n))) else none

/-- `sk-[A-Za-z0-9]{32,}` (greedy body). -/
def skMatcher (l : List Char) : Option (Nat × List Char) :=
  match dropLit "sk-".data l with
  | none => none
  | some rest =>
    let n := runLen isAlnum rest
    if 32 ≤ n then some (3 + n, replForToken (l.take (3 + n))) else none

/-- `xox[a-zA-Z]-[A-Za-z0-9-]{10,}` (greedy body). -/
def xoxMatcher (l : List Char) : Option (Nat × List Char) :=
  match dropLit "xox".data l with
  | none => none
  | some rest =>
    match rest with
    | k :: rest₁ =>
      if k.isAlpha then
        match rest₁ with
        | d :: rest₂ =>
          if d = '-' then
            let n := runLen isSlackChar rest₂
            if 10 ≤ n then some (5 + n, replForToken (l.take (5 + n))) else none
          else none
        | [] => none
      else none
    | [] => none

/-- `(?:ASIA|AKIA)[0-9A-Z]{16}`. -/
def awsMatcher (l : List Char) : Option (Nat × List Char) :=
  let body : List Char → Option (Nat × List Char) := fun rest =>
    if 16 ≤ runLen isUpperDigit rest then
      some (20, replForToken (l.take 20))
    else none
  match dropLit "ASIA".data l with
  | some rest => body rest
  | none =>
    match dropLit "AKIA".data l with
    | some rest => body rest
    | none => none

/-- `(?i)Bearer\s+[A-Za-z0-9._-]{8,}` (greedy whitespace and body). -/
def bearerMatcher (l : List Char) : Option (Nat × List Char) :=
  match ciDropLit "bearer".data l with
  | none => none
  | some rest =>
    let w := runLen isPyWs rest
    if w = 0 then none
    else
      let n := runLen isValueChar (rest.drop w)
      if 8 ≤ n then some (6 + w + n, replForToken (l.take (6 + w + n))) else none

/-- Does one of the four credential keywords of the assignment pattern match
(case-insensitively) at the head of `l`?  At most one can, since their first
letters differ. -/
def kwAt (l : List Char) : Bool :=
  (ciDropLit "api".data l).isSome || (ciDropLit "token".data l).isSome
    || (ciDropLit "secret".data l).isSome || (ciDropLit "password".data l).isSome

/-- Is there a keyword occurrence starting at an offset `k ≤ r1` of `l`?  This
is the backtracking search of `[\w-]*(?:api|token|secret|password)` at a match
position: the keyword may start anywhere inside the maximal `[\w-]` run. -/
def kwWithin (l : List Char) (r1 : Nat) : Bool :=
  (List.range (r1 + 1)).any fun k => kwAt (l.drop k)

/-- The assignment pattern
`(?i)(?P<key>[\w-]*(?:api|token|secret|password)[\w-]*)`
`(?P<pre>\s*)(?P<sep>[:=])(?P<post>\s*)(?P<value>[A-Za-z0-9-_.]{8,})`.

Because the keyword letters are `[\w-]` characters and the classes
`[\w-]`/`\s`/`[:=]` are pairwise disjoint, every successful backtracking
decomposition at a given position puts the separator at the end of the same
maximal `[\w-]` run followed by the same maximal `\s` run, so the match length
and the group split `key/pre/sep/post/value` are uniquely determined.  The
replacement of `_repl`'s named-group branch keeps everything but the value:
`key + pre + sep + post + "***"`. -/
def keyMatcher (l : List Char) : Option (Nat × List Char) :=
  let r1 := runLen isKeyChar l
  if kwWithin l r1 then
    let pre := runLen isPyWs (l.drop r1)
    match l.drop (r1 + pre) with
    | sep :: afterSep =>
      if sep = ':' || sep = '=' then
        let post := runLen isPyWs afterSep
        let v := runLen isValueChar (afterSep.drop post)
        if 8 ≤ v then
          some (r1 + pre + 1 + post + v,
            l.take (r1 + pre + 1 + post) ++ "***".data)
        else none
      else none
    | [] => none
  else none

/-! ## `secret.py`: the substitution driver and `redact_secrets` -/

/-- One pass of Python `pattern.sub(_repl, text)`: scan positions left to
right, replace each leftmost non-overlapping match, resume scanning after the
matched text.  `fuel` bounds the recursion; `reSub` supplies `l.length`, which
suffices because every match consumes at least one character. -/
def reSubAux (m : List Char → Option (Nat × List Char)) :
    Nat → List Char → List Char
  | 0, l => l
  | _ + 1, [] => []
  | fuel + 1, c :: rest =>
    match m (c :: rest) with
    | some (n, r) => r ++ reSubAux m fuel (rest.drop (n - 1))
    | none => c :: reSubAux m fuel rest

/-- Python `pattern.sub(_repl, text)` for one pattern. -/
def reSub (m : List Char → Option (Nat × List Char)) (l : List Char) :
    List Char :=
  reSubAux m l.length l

/-- `redact_secrets` on character lists: the seven patterns of
`SECRET_PATTERNS` applied in source order. -/
def redactL (l : List Char) : List Char :=
  reSub keyMatcher (reSub bearerMatcher (reSub awsMatcher (reSub xoxMatcher
    (reSub skMatcher (reSub githubPatMatcher (reSub ghMatcher l))))))

/-- `redact_secrets(text)` from `src/f2clipboard/secret.py`. -/
def redact_secrets (s : String) : String :=
  ⟨redactL s.data⟩

deriving instance DecidableEq for Except

/-! ## Process model

`Proc` is the observable outcome of one subprocess invocation; `World`
packages one oracle per external call site of the merge workflow.  Oracles
are deterministic per call site, which suffices for the properties below. -/

structure Proc where
  exitCode : Int
  stdout : String
  stderr : String
deriving DecidableEq

/-- The environment-derived fields of `config.Settings` that the merge
workflow reads.  Model names and the log-size threshold are not observable
in this model. -/
structure Settings where
  githubToken : Option String
  openaiApiKey : Option String
  anthropicApiKey : Option String
deriving DecidableEq

/-- `MergeStrategy` from `merge_resolve.py`. -/
inductive MergeStrategy where
  | ours
  | theirs
  | both
deriving DecidableEq

/-- `MergeStrategy.value`. -/
def MergeStrategy.value : MergeStrategy → String
  | .ours => "ours"
  | .theirs => "theirs"
  | .both => "both"

/-- The two LLM providers of `llm.py`. -/
inductive Provider where
  | openai
  | anthropic
deriving DecidableEq

/-- External commands the merge workflow can invoke (section 6 of the spec). -/
inductive Cmd where
  | gitStatus
  | gitStatusZ
  | gitMerge (strategy : MergeStrategy) (base : String)
  | gitMergeAbort
  | gitDiffU
  | gitDiffUNameOnly
  | gitRemoteUrl
  | gitFetchPr (number : Nat)
  | gitCheckout (branch : String)
  | preCommit (files : List String)
  | pytest
deriving DecidableEq

/-- Observable events of a run, in order: external commands, LLM provider
contacts, GitHub HTTP calls, and `typer.echo` output on each channel. -/
inductive Event where
  | cmd (c : Cmd)
  | echoOut (msg : String)
  | echoErr (msg : String)
  | llm (p : Provider)
  | httpGetPr (owner repo : String) (number : Nat)
  | httpPostComment (owner repo : String) (number : Nat) (body : String)
deriving DecidableEq

/-- Outcome oracles for every external call site of the merge workflow. -/
structure World where
  mergeHeadExists : Bool
  gitStatus : Proc
  statusZ : Proc
  remoteUrl : Proc
  prBase : Except String String
  fetchExit : Int
  checkoutExit : Int
  mergeExit : MergeStrategy → Int
  diffU : Proc
  diffUNames : Proc
  abortExit : Int
  preCommitExit : List String → Int
  pytestExit : Int
  openaiPatch : Except String String
  anthropicPatch : Except String String
  postComment : Except String Unit

/-! ## Event observers -/

/-- The external commands among a run's events, in order. -/
def cmdsOf (evs : List Event) : List Cmd :=
  evs.filterMap fun e => match e with
    | .cmd c => some c
    | _ => none

/-- The merge strategies attempted (the `git merge` invocations), in order. -/
def mergesIn (evs : List Event) : List MergeStrategy :=
  evs.filterMap fun e => match e with
    | .cmd (.gitMerge s _) => some s
    | _ => none

/-- The messages written to the error stream, in order. -/
def errEchoes (evs : List Event) : List String :=
  evs.filterMap fun e => match e with
    | .echoErr m => some m
    | _ => none

/-- The LLM providers contacted, in order. -/
def llmCallsIn (evs : List Event) : List Provider :=
  evs.filterMap fun e => match e with
    | .llm p => some p
    | _ => none

/-! ## `merge_resolve.py`: worktree precondition and conflict capture -/

/-- `_ensure_clean_worktree`: abort if `.git/MERGE_HEAD` exists or the
worktree has uncommitted changes.  The `MERGE_HEAD` check happens before
`git status` is run. -/
def ensureCleanWorktree (w : World) : Except Int Unit × List Event :=
  if w.mergeHeadExists then
    (.error 1,
     [.echoErr "A merge is already in progress. Complete or abort it before rerunning."])
  else
    let status := w.gitStatus
    let ev : List Event := [.cmd .gitStatus]
    if status.exitCode ≠ 0 then
      (.error (orOne status.exitCode),
       ev ++ [.echoErr (strOr (pyStrip status.stderr) "git status failed")])
    else if pyStrip status.stdout ≠ "" then
      (.error 1,
       ev ++ [.echoErr "Repository has uncommitted changes. Commit or stash them before running merge-resolve."])
    else (.ok (), ev)

/-- `_collect_conflict_diff`: run `git --no-pager diff --diff-filter=U`; on
failure, echo a `Warning:` message and return `None`; on success, return the
stripped output, or `None` when it is empty. -/
def collectConflictDiff (w : World) : Option String × List Event :=
  let diff := w.diffU
  let ev : List Event := [.cmd .gitDiffU]
  if diff.exitCode ≠ 0 then
    (none, ev ++ [.echoErr ("Warning: " ++ strOr (pyStrip diff.stderr) "git diff failed")])
  else
    let output := pyStrip diff.stdout
    (if output = "" then none else some output, ev)

/-- `_attempt_merge`: run the no-commit merge; on failure capture the
conflict diff, then `git merge --abort`; a failing abort raises
`typer.Exit(code=abort.returncode or 1)`. -/
def attemptMerge (w : World) (base : String) (strategy : MergeStrategy) :
    Except Int (Bool × Option String) × List Event :=
  let ev0 : List Event :=
    [.echoOut ("Attempting merge with strategy '" ++ strategy.value ++ "' from " ++ base ++ "…"),
     .cmd (.gitMerge strategy base)]
  let code := w.mergeExit strategy
  if code = 0 then (.ok (true, none), ev0)
  else
    let ev1 := ev0 ++
      [.echoErr ("Merge with strategy '" ++ strategy.value ++ "' failed (exit code " ++
        toString code ++ ").")]
    let (conflictDiff, ev2) := collectConflictDiff w
    let ev3 := ev1 ++ ev2 ++ [.cmd .gitMergeAbort]
    if w.abortExit ≠ 0 then
      (.error (orOne w.abortExit),
       ev3 ++ [.echoErr "Failed to abort merge automatically; resolve the repository state manually."])
    else (.ok (false, conflictDiff), ev3)

/-! ## `llm.py` and the patch-suggestion wrapper -/

/-- `generate_conflict_patch` from `llm.py`: `None` on an empty diff;
otherwise OpenAI if its key is truthy, else Anthropic if its key is truthy,
else `None`; the provider call is wrapped in `except Exception: return None`,
so an API or transport error (the oracle's `.error` case) becomes `None`.
The returned content is stripped. -/
def generateConflictPatch (w : World) (diff : String) (s : Settings) :
    Option String × List Event :=
  if pyStrip diff = "" then (none, [])
  else if pyTruthy s.openaiApiKey then
    match w.openaiPatch with
    | .ok content => (some (pyStrip content), [.llm .openai])
    | .error _ => (none, [.llm .openai])
  else if pyTruthy s.anthropicApiKey then
    match w.anthropicPatch with
    | .ok content => (some (pyStrip content), [.llm .anthropic])
    | .error _ => (none, [.llm .anthropic])
  else (none, [])

/-- `_generate_patch_suggestion` from `merge_resolve.py`: `None` on an empty
diff or when neither credential is truthy; otherwise delegates to
`generate_conflict_patch`.  The `asyncio.run` re-entrancy guard
(`RuntimeError` when nested in a running loop) is environmental and not
modelled; `generate_conflict_patch` itself never raises. -/
def generatePatchSuggestion (w : World) (diff : String) (s : Settings) :
    Option String × List Event :=
  if pyStrip diff = "" then (none, [])
  else if !(pyTruthy s.openaiApiKey || pyTruthy s.anthropicApiKey) then (none, [])
  else generateConflictPatch w diff s

/-! ## `merge_resolve.py`: PR identifier parsing and remote-slug derivation -/

/-- Python `str.isdigit` restricted to the ASCII plane: nonempty and all
decimal digits. -/
def pyIsDigit (l : List Char) : Bool :=
  !l.isEmpty && l.all Char.isDigit

/-- The number denoted by a decimal digit string (`int(...)`). -/
def digitsVal (l : List Char) : Nat :=
  l.foldl (fun a c => a * 10 + (c.toNat - 48)) 0

/-- The PR-URL regex
`https?://github.com/(?P<owner>[^/]+)/(?P<repo>[^/]+)/pull/(?P<number>\d+)`
as matched by `re.match` (anchored at the start only, trailing text allowed).
The dot of `github.com` is unescaped in the source, so it matches any single
character except a newline. -/
def matchPrUrl (l : List Char) : Option (Nat × String × String) :=
  match dropLit "http".data l with
  | none => none
  | some l₁ =>
    let l₂? : Option (List Char) :=
      match l₁ with
      | 's' :: rest => dropLit "://".data rest
      | _ => dropLit "://".data l₁
    match l₂? with
    | none => none
    | some l₂ =>
      match dropLit "github".data l₂ with
      | none => none
      | some l₃ =>
        match l₃ with
        | [] => none
        | c :: l₄ =>
          if c = '\n' then none
          else
            match dropLit "com/".data l₄ with
            | none => none
            | some l₅ =>
              let owner := l₅.takeWhile (fun c => !(c = '/'))
              if owner.isEmpty then none
              else
                match l₅.drop owner.length with
                | '/' :: l₆ =>
                  let repo := l₆.takeWhile (fun c => !(c = '/'))
                  if repo.isEmpty then none
                  else
                    match dropLit "/pull/".data (l₆.drop repo.length) with
                    | none => none
                    | some l₇ =>
                      let digits := l₇.takeWhile Char.isDigit
                      if digits.isEmpty then none
                      else some (digitsVal digits, ⟨owner⟩, ⟨repo⟩)
                | _ => none

/-- `_parse_pr_identifier`: strip, accept a pure digit string, else try the
PR-URL regex, else `ValueError` with a fixed message. -/
def parsePrIdentifier (prValue : String) : Except String (Nat × Option String × Option String) :=
  let v := pyStripL prValue.data
  if pyIsDigit v then .ok (digitsVal v, none, none)
  else
    match matchPrUrl v with
    | some (n, o, r) => .ok (n, some o, some r)
    | none => .error "Provide a PR number or GitHub pull request URL"

/-- First occurrence split: `some (before, after)` when `pat` occurs in `l`. -/
def splitFirstAux (pat : List Char) : List Char → Option (List Char × List Char)
  | [] =>
    match dropLit pat [] with
    | some r => some ([], r)
    | none => none
  | c :: cs =>
    match dropLit pat (c :: cs) with
    | some r => some ([], r)
    | none =>
      match splitFirstAux pat cs with
      | some (a, b) => some (c :: a, b)
      | none => none

/-- Does `pat` occur as a contiguous subsequence of `l`? -/
def containsSub (pat l : List Char) : Bool :=
  (splitFirstAux pat l).isSome

/-- Does `l` end with `pat`? -/
def endsWithL (pat l : List Char) : Bool :=
  (dropLit pat.reverse l.reverse).isSome

/-- `_get_remote_slug`: derive `(owner, repo)` from the origin remote URL.
`split(":", 1)[-1]` and `split("github.com/", 1)[-1]` keep the text after the
first occurrence (or the whole string when absent); `partition("/")` splits at
the first slash. -/
def getRemoteSlug (w : World) : Except String (String × String) × List Event :=
  let res := w.remoteUrl
  let ev : List Event := [.cmd .gitRemoteUrl]
  if res.exitCode ≠ 0 then
    (.error (strOr (pyStrip res.stderr) "Could not read origin remote URL"), ev)
  else
    let url := pyStrip res.stdout
    if url = "" then (.error "origin remote URL is empty", ev)
    else
      let path? : Except String (List Char) :=
        if (dropLit "git@".data url.data).isSome then
          .ok (match splitFirstAux ":".data url.data with
               | some (_, after) => after
               | none => url.data)
        else if containsSub "github.com/".data url.data then
          .ok (match splitFirstAux "github.com/".data url.data with
               | some (_, after) => after
               | none => url.data)
        else .error "Unsupported origin remote URL format"
      match path? with
      | .error e => (.error e, ev)
      | .ok p₀ =>
        let p₁ := if endsWithL ".git".data p₀ then p₀.take (p₀.length - 4) else p₀
        let (ownerL, repoL) :=
          match splitFirstAux "/".data p₁ with
          | some (a, b) => (a, b)
          | none => (p₁, [])
        if ownerL.isEmpty || repoL.isEmpty then
          (.error "Could not parse origin remote into owner/repo", ev)
        else (.ok (⟨ownerL⟩, ⟨repoL⟩), ev)

/-! ## `merge_resolve.py`: GitHub API interactions -/

/-- `_fetch_pr_base`: query the PR's base branch; an HTTP error becomes a
warning and `None`; an empty `ref` becomes `None` (`return ref or None`).
The auth header derived from the token has no observable effect here. -/
def fetchPrBase (w : World) (owner repo : String) (number : Nat)
    (_token : Option String) : Option String × List Event :=
  let ev : List Event := [.httpGetPr owner repo number]
  match w.prBase with
  | .error e => (none, ev ++ [.echoErr ("Warning: Failed to fetch PR metadata: " ++ e)])
  | .ok ref => (if ref = "" then none else some ref, ev)

/-- `_checkout_pr_branch`: fetch `pull/<n>/head` into `pr-<n>` and check it
out; each step raises `typer.Exit(code=returncode or 1)` on failure. -/
def checkoutPrBranch (w : World) (number : Nat) : Except Int String × List Event :=
  let branch := "pr-" ++ toString number
  let ev0 : List Event := [.cmd (.gitFetchPr number)]
  if w.fetchExit ≠ 0 then
    (.error (orOne w.fetchExit),
     ev0 ++ [.echoErr ("Failed to fetch PR #" ++ toString number ++
       " from origin (exit code " ++ toString w.fetchExit ++ ").")])
  else
    let ev1 := ev0 ++ [.cmd (.gitCheckout branch)]
    if w.checkoutExit ≠ 0 then
      (.error (orOne w.checkoutExit),
       ev1 ++ [.echoErr ("Failed to check out fetched branch '" ++ branch ++
         "' (exit code " ++ toString w.checkoutExit ++ ").")])
    else (.ok branch, ev1)

/-- `_post_pr_comment`: skip without a truthy (stripped) token; on HTTP error
echo a warning and continue; never influences the caller's exit code. -/
def postPrComment (w : World) (owner repo : String) (number : Nat)
    (token : Option String) (body : String) : List Event :=
  let t : Option String :=
    match token with
    | some s => if pyStrip s = "" then none else some (pyStrip s)
    | none => none
  match t with
  | none => [.echoErr "Skipping PR comment because GITHUB_TOKEN is not configured."]
  | some _ =>
    [.httpPostComment owner repo number body] ++
      (match w.postComment with
       | .error e => [.echoErr ("Warning: Failed to post PR comment: " ++ e)]
       | .ok _ => [.echoOut "Posted merge summary comment to the PR."])

/-! ## `merge_checks.py`: status parsing and the validation runner -/

/-- Split on NUL separators, keeping empty pieces. -/
def splitNulAux : List Char → List Char → List (List Char)
  | [], acc => [acc.reverse]
  | c :: rest, acc =>
    if c = '\x00' then acc.reverse :: splitNulAux rest []
    else splitNulAux rest (c :: acc)

/-- `output.split("\0")` with empty entries dropped, as in
`_parse_git_status`. -/
def splitNul (l : List Char) : List (List Char) :=
  (splitNulAux l []).filter (fun e => !e.isEmpty)

/-- Python `str.splitlines()` for the ASCII line breaks `\n`, `\r\n`, `\r`. -/
def pySplitlinesAux : List Char → List Char → List (List Char)
  | [], acc => if acc.isEmpty then [] else [acc.reverse]
  | '\n' :: rest, acc => acc.reverse :: pySplitlinesAux rest []
  | '\x0d' :: '\n' :: rest, acc => acc.reverse :: pySplitlinesAux rest []
  | '\x0d' :: rest, acc => acc.reverse :: pySplitlinesAux rest []
  | c :: rest, acc => pySplitlinesAux rest (c :: acc)

/-- Python `str.splitlines()`. -/
def pySplitlines (l : List Char) : List (List Char) :=
  pySplitlinesAux l []

/-- The NUL-delimited entry walk of `_parse_git_status`: a rename/copy entry
(`R`/`C` status) takes its path from the following entry; entries whose
status contains `D` or whose path is empty are skipped. -/
def parseStatusEntries : List (List Char) → List (List Char)
  | [] => []
  | entry :: rest =>
    let status := entry.take 2
    if !status.isEmpty &&
        (match status with
         | c :: _ => c = 'R' || c = 'C'
         | [] => false) then
      match rest with
      | [] => []
      | path :: rest₂ =>
        if status.contains 'D' || path.isEmpty then parseStatusEntries rest₂
        else path :: parseStatusEntries rest₂
    else
      let path := entry.drop 3
      if status.contains 'D' || path.isEmpty then parseStatusEntries rest
      else path :: parseStatusEntries rest
  termination_by l => l.length
  decreasing_by all_goals simp_arith [List.length]

/-- Unescape the body of a quoted path as `ast.literal_eval` would, for the
C-style escapes git emits (`\\`, `\"`, `\'`, `\n`, `\t`, `\r`); other escape
pairs are kept verbatim (a modelling totalisation of the
`SyntaxError`/`ValueError` fallback, which no caller in the repository
reaches with `-z` output). -/
def unescapeAux : List Char → List Char
  | [] => []
  | ['\\'] => ['\\']
  | '\\' :: c :: rest =>
    if c = 'n' then '\n' :: unescapeAux rest
    else if c = 't' then '\t' :: unescapeAux rest
    else if c = 'r' then '\x0d' :: unescapeAux rest
    else if c = '\\' then '\\' :: unescapeAux rest
    else if c = '"' then '"' :: unescapeAux rest
    else if c = '\x27' then '\x27' :: unescapeAux rest
    else '\\' :: c :: unescapeAux rest
  | c :: rest => c :: unescapeAux rest

/-- `path.strip('"')`. -/
def stripQuotes (l : List Char) : List Char :=
  ((l.dropWhile (fun c => c = '"')).reverse.dropWhile (fun c => c = '"')).reverse

/-- One line of the newline-delimited branch of `_parse_git_status`. -/
def parseStatusLine? (line : List Char) : Option (List Char) :=
  if line.isEmpty then none
  else
    let status := line.take 2
    let path₀ := pyStripL (line.drop 3)
    if path₀.isEmpty then none
    else
      let path₁ :=
        if (match path₀ with
            | c :: _ => c = '"'
            | [] => false) &&
           (match path₀.getLast? with
            | some c => c = '"'
            | none => false) then
          unescapeAux ((path₀.drop 1).take (path₀.length - 2))
        else path₀
      let path₂ :=
        match splitFirstAux "->".data path₁ with
        | some (_, after) => pyStripL after
        | none => path₁
      if status.contains 'D' then none else some path₂

/-- `_parse_git_status`. -/
def parseGitStatus (output : String) : List String :=
  if output.data.contains '\x00' then
    (parseStatusEntries (splitNul output.data)).map fun l => ⟨l⟩
  else
    ((pySplitlines output.data).filterMap parseStatusLine?).map fun l => ⟨l⟩

/-- `_collect_modified_files`: `git status --porcelain -z`, a `RuntimeError`
on failure, the parsed file list on success. -/
def collectModifiedFiles (w : World) : Except String (List String) × List Event :=
  let st := w.statusZ
  let ev : List Event := [.cmd .gitStatusZ]
  if st.exitCode ≠ 0 then (.error (strOr (pyStrip st.stderr) "git status failed"), ev)
  else (.ok (parseGitStatus st.stdout), ev)

/-- Lines 118–133 of `merge_checks.py`: run `pre-commit` on the target files
when the list is nonempty (propagating a nonzero exit code and skipping the
tests), or skip it when empty; then run `pytest -q`, propagating its exit
code. -/
def mergeChecksRun (w : World) (targetFiles : List String) :
    Except Int Unit × List Event :=
  let (failed, evPre) :=
    if !targetFiles.isEmpty then
      let code := w.preCommitExit targetFiles
      ((if code ≠ 0 then some code else none),
       [Event.echoOut ("Running pre-commit on " ++ toString targetFiles.length ++ " file(s)…"),
        Event.cmd (.preCommit targetFiles)])
    else (none, [Event.echoOut "No modified files detected; skipping pre-commit."])
  match failed with
  | some code => (.error code, evPre)
  | none =>
    let ev₂ := evPre ++ [Event.echoOut "Running pytest -q…", Event.cmd .pytest]
    if w.pytestExit ≠ 0 then (.error w.pytestExit, ev₂)
    else (.ok (), ev₂ ++ [Event.echoOut "Checks completed successfully."])

/-- `merge_checks_command`.  Python's `if files:` sends both `None` and an
empty explicit list to status discovery.  The path resolution applied to
explicit files (absolutising against the repo root and relativising back) is
filesystem-dependent and modelled as the identity on the given strings. -/
def mergeChecksCommand (w : World) (files : Option (List String)) :
    Except Int Unit × List Event :=
  let explicit : Option (List String) :=
    match files with
    | some fs => if fs.isEmpty then none else some fs
    | none => none
  match explicit with
  | some fs => mergeChecksRun w fs
  | none =>
    match collectModifiedFiles w with
    | (.error msg, ev) =>
      (.error 1, ev ++ [.echoErr ("Failed to determine modified files: " ++ msg)])
    | (.ok tf, ev) =>
      let (r, ev₂) := mergeChecksRun w tf
      (r, ev ++ ev₂)

/-! ## `merge_resolve.py`: the orchestrator -/

/-- The strategy loop of `merge_resolve_command`: attempt each strategy in
order, stop at the first success, collect the truthy conflict diffs of failed
attempts, and propagate a fatal `typer.Exit` from `_attempt_merge`. -/
def attemptLoop (w : World) (base : String) :
    List MergeStrategy → Except Int (Option MergeStrategy) × List String × List Event
  | [] => (.ok none, [], [])
  | s :: rest =>
    match attemptMerge w base s with
    | (.error c, ev) => (.error c, [], ev)
    | (.ok (true, _), ev) => (.ok (some s), [], ev)
    | (.ok (false, d), ev) =>
      let (r, diffs, ev₂) := attemptLoop w base rest
      (r, (match d with
           | some t => t :: diffs
           | none => diffs), ev ++ ev₂)

/-- The messages echoed when no patch suggestion came back, depending on
whether a credential is configured. -/
def noPatchMsgs (s : Settings) : List Event :=
  if pyTruthy s.openaiApiKey || pyTruthy s.anthropicApiKey then
    [.echoErr "Failed to generate a patch suggestion automatically."]
  else
    [.echoErr "Configure OPENAI_API_KEY or ANTHROPIC_API_KEY to enable automatic patch suggestions."]

/-- The PR block of `merge_resolve_command` (`if pr:` through the base-branch
override): parse the identifier, derive the slug when the identifier was a
bare number, fetch the PR base, fetch and check out the PR head.  Returns the
PR data and the merge base to use.  `base.isSome` models Click's
parameter-source check; `if pr:` uses Python truthiness, so an empty string
skips the block. -/
def prStepRun (w : World) (settings : Settings) (base : Option String)
    (pr : Option String) :
    Except Int (Option (Nat × String × String) × Option String) × List Event :=
  if !(pyTruthy pr) then (.ok (none, base), [])
  else
    match parsePrIdentifier (pr.getD "") with
    | .error msg => (.error 1, [.echoErr msg])
    | .ok (n, o?, r?) =>
      let slug : Except String (String × String) × List Event :=
        match o?, r? with
        | some o, some r => (.ok (o, r), [])
        | _, _ => getRemoteSlug w
      match slug with
      | (.error msg, ev) => (.error 1, ev ++ [.echoErr msg])
      | (.ok (o, r), ev) =>
        let (baseRef, ev₂) := fetchPrBase w o r n settings.githubToken
        match checkoutPrBranch w n with
        | (.error c, ev₃) => (.error c, ev ++ ev₂ ++ ev₃)
        | (.ok branch, ev₃) =>
          let ev₄ := ev ++ ev₂ ++ ev₃ ++
            [.echoOut ("Checked out PR #" ++ toString n ++ " into '" ++ branch ++ "'.")]
          match baseRef with
          | some ref =>
            if !base.isSome then
              (.ok (some (n, o, r), some ("origin/" ++ ref)),
               ev₄ ++ [.echoOut ("Using base branch 'origin/" ++ ref ++ "' from PR metadata.")])
            else (.ok (some (n, o, r), base), ev₄)
          | none => (.ok (some (n, o, r), base), ev₄)

/-- The summary comment posted on the PR when one was supplied (the
`pr_number is not None and owner and repo_name` guard). -/
def prCommentIfAny (w : World) (settings : Settings)
    (prInfo : Option (Nat × String × String)) (body : String) : List Event :=
  match prInfo with
  | some (n, o, r) =>
    if !(o = "") && !(r = "") then
      postPrComment w o r n settings.githubToken body
    else []
  | none => []

/-- The failure tail of `merge_resolve_command`: announce the failure,
attempt an LLM patch suggestion on the combined diff, and post the failure
comment when a PR was supplied.  The caller exits with code 1. -/
def failureWrapUp (w : World) (settings : Settings) (diffs : List String)
    (prInfo : Option (Nat × String × String)) : List Event :=
  let combined := String.intercalate "\n\n" diffs
  [.echoErr "Automatic merge strategies failed. Manual intervention required."] ++
    (if combined ≠ "" then
      let (patch, evP) := generatePatchSuggestion w combined settings
      [.echoOut "Attempting to generate a patch suggestion using the configured LLM…"] ++
        evP ++
        (match patch with
         | some p =>
           if p ≠ "" then
             [.echoOut "Suggested patch (apply with `git apply`):", .echoOut p]
           else noPatchMsgs settings
         | none => noPatchMsgs settings)
    else []) ++
    prCommentIfAny w settings prInfo
      "⚠️ `f2clipboard merge-resolve` could not resolve the merge automatically. Manual conflict resolution is required."

/-- The success tail of `merge_resolve_command`: announce the winning
strategy; when `run_checks` is set, run `merge_checks_command` (posting a
failure or success comment when a PR was supplied, and re-raising a check
failure); otherwise remind the user to validate later. -/
def successWrapUp (w : World) (settings : Settings) (st : MergeStrategy)
    (runChecks : Bool) (prInfo : Option (Nat × String × String)) :
    Except Int Unit × List Event :=
  let ev₃ : List Event :=
    [.echoOut ("Merge completed using strategy '" ++ st.value ++ "'."),
     .echoOut "Review the changes, resolve any remaining issues and commit when ready."]
  if runChecks then
    match mergeChecksCommand w none with
    | (.error c, evC) =>
      (.error c,
       ev₃ ++ evC ++
         prCommentIfAny w settings prInfo
           ("❌ `f2clipboard merge-resolve` completed automatically using the `" ++
            st.value ++ "` strategy, but merge checks failed with exit code " ++
            toString c ++ ". Please review the check output and address any issues."))
    | (.ok _, evC) =>
      (.ok (),
       ev₃ ++ evC ++
         prCommentIfAny w settings prInfo
           ("✅ `f2clipboard merge-resolve` completed automatically using the `" ++
            st.value ++ "` strategy. Merge checks were executed successfully."))
  else
    (.ok (),
     ev₃ ++ [.echoOut "Run `f2clipboard merge-checks` to validate the merge when convenient."] ++
       prCommentIfAny w settings prInfo
         ("✅ `f2clipboard merge-resolve` completed automatically using the `" ++
          st.value ++ "` strategy. Remember to run validation checks before pushing."))

/-- `merge_resolve_command`: clean-worktree precondition, optional PR step,
strategy expansion (`both` → `[ours, theirs]`), the attempt loop, then the
failure or success tail. -/
def mergeResolveCommand (w : World) (settings : Settings) (base : Option String)
    (strategy : MergeStrategy) (runChecks : Bool) (pr : Option String) :
    Except Int Unit × List Event :=
  match ensureCleanWorktree w with
  | (.error c, ev) => (.error c, ev)
  | (.ok _, ev₀) =>
    match prStepRun w settings base pr with
    | (.error c, ev₁) => (.error c, ev₀ ++ ev₁)
    | (.ok (prInfo, mergeBase?), ev₁) =>
      let mergeBase := mergeBase?.getD "origin/main"
      let strategies : List MergeStrategy :=
        match strategy with
        | .both => [.ours, .theirs]
        | s => [s]
      match attemptLoop w mergeBase strategies with
      | (.error c, _, ev₂) => (.error c, ev₀ ++ ev₁ ++ ev₂)
      | (.ok succeeded, diffs, ev₂) =>
        let evB := ev₀ ++ ev₁ ++ ev₂
        match succeeded with
        | none => (.error 1, evB ++ failureWrapUp w settings diffs prInfo)
        | some st =>
          match successWrapUp w settings st runChecks prInfo with
          | (r, ev₄) => (r, evB ++ ev₄)

/-! ## Spec-side conflict collector (for the refinement comparison) -/

/-- The `ConflictDetails` record of the spec's data model (section 3). -/
structure ConflictDetails where
  files : List String
  diff : String
deriving DecidableEq

/-- Modelled from the spec: the section 4.3 collector contract
`collect(workingTree) -> ConflictDetails`, whose two sub-operations — listing
the unmerged paths (`diff --diff-filter=U --name-only`, section 6) and
capturing the diff restricted to them — are each best-effort: on failure the
collector logs a warning and substitutes an empty list or empty diff.  No
function of the repository implements the path-listing sub-operation; this
definition exists to compare the spec's contract with
`collectConflictDiff`. -/
def collectConflictDetailsSpec (w : World) : ConflictDetails × List Event :=
  let names := w.diffUNames
  let ev₀ : List Event := [.cmd .gitDiffUNameOnly]
  let (files, ev₁) :=
    if names.exitCode ≠ 0 then
      (([] : List String),
       ev₀ ++ [Event.echoErr ("Warning: " ++ strOr (pyStrip names.stderr) "git diff failed")])
    else ((pySplitlines names.stdout.data).map (fun l => (⟨l⟩ : String)), ev₀)
  let diff := w.diffU
  let ev₂ := ev₁ ++ [Event.cmd .gitDiffU]
  if diff.exitCode ≠ 0 then
    (⟨files, ""⟩,
     ev₂ ++ [Event.echoErr ("Warning: " ++ strOr (pyStrip diff.stderr) "git diff failed")])
  else (⟨files, diff.stdout⟩, ev₂)

/-! ## Concrete fixtures used by witnesses and counterexamples -/

/-- A successful process outcome. -/
def procOk : Proc := ⟨0, "", ""⟩

/-- A clean world where every external call succeeds. -/
def worldOk : World :=
  { mergeHeadExists := false, gitStatus := procOk, statusZ := procOk,
    remoteUrl := ⟨0, "git@github.com:foo/bar.git", ""⟩, prBase := .ok "main",
    fetchExit := 0, checkoutExit := 0, mergeExit := fun _ => 0,
    diffU := ⟨0, "diff --git a b", ""⟩, diffUNames := ⟨0, "file.txt", ""⟩,
    abortExit := 0, preCommitExit := fun _ => 0, pytestExit := 0,
    openaiPatch := .ok "patch", anthropicPatch := .ok "patch", postComment := .ok () }

/-- Settings with no credential configured. -/
def settingsNone : Settings := ⟨none, none, none⟩

/-- Settings with only the OpenAI key configured. -/
def settingsOpenai : Settings := ⟨none, some "sk-test-key", none⟩

/-- Settings with only the Anthropic key configured. -/
def settingsAnthropic : Settings := ⟨none, none, some "sk-ant-key"⟩

/-- Settings with both provider keys configured. -/
def settingsBothKeys : Settings := ⟨some "ghtok", some "sk-test-key", some "sk-ant-key"⟩

/-- A world where the `ours` merge fails and `theirs` succeeds. -/
def worldOursFails : World :=
  { worldOk with
    mergeExit := fun s => match s with
      | .ours => 1
      | _ => 0 }

/-- A world where every merge strategy fails. -/
def worldAllFail : World := { worldOk with mergeExit := fun _ => 1 }

/-- A world where every merge fails and `git merge --abort` fails too. -/
def worldAbortFail : World := { worldAllFail with abortExit := 128 }

/-- A world whose worktree has an untracked file. -/
def worldDirty : World := { worldOk with gitStatus := ⟨0, "?? untracked.txt\n", ""⟩ }

/-- A world with a merge already in progress. -/
def worldMergeHead : World := { worldOk with mergeHeadExists := true }

/-- A world where the conflict-diff command fails. -/
def worldDiffFail : World := { worldAllFail with diffU := ⟨1, "", "diff exploded"⟩ }

/-- A world where `pre-commit` exits with code 3. -/
def worldPreCommit3 : World := { worldOk with preCommitExit := fun _ => 3 }

/-- A world where the OpenAI request fails with a transport error. -/
def worldOpenaiDown : World := { worldOk with openaiPatch := .error "api down" }

/-- The characters of `"TOKEN = "`, the assignment prefix of the spec's
example. -/
def tokenKeyPfx : List Char := ['T', 'O', 'K', 'E', 'N', ' ', '=', ' ']

/-- The characters of `"api_key:\t"`, the assignment prefix of the
repository's whitespace-preservation test. -/
def apiKeyPfx : List Char := ['a', 'p', 'i', '_', 'k', 'e', 'y', ':', '\t']

/-- A GitHub token followed by 28 further alphanumerics: redacting it yields
`ghp_REDACTED` followed by those alphanumerics, which matches the GitHub
token pattern again. -/
def c4Input : String :=
  ⟨'g' :: 'h' :: 'p' :: '_' :: (List.replicate 36 'a' ++ List.replicate 28 'b')⟩

/-- An assignment whose key itself embeds a GitHub token. -/
def c8KeyEmbedsToken : String :=
  ⟨'g' :: 'h' :: 'p' :: '_' :: (List.replicate 36 'a' ++ "token=abcdefgh".data)⟩

/-- The clean-worktree precondition of `merge_resolve_command`: no merge in
progress, `git status --porcelain` succeeds with empty output. -/
def CleanWorld (w : World) : Prop :=
  w.mergeHeadExists = false ∧ w.gitStatus.exitCode = 0 ∧ pyStrip w.gitStatus.stdout = ""

/-! ## Observer lemmas -/

theorem mergesIn_append (a b : List Event) :
    mergesIn (a ++ b) = mergesIn a ++ mergesIn b := by
  simp [mergesIn]

theorem errEchoes_append (a b : List Event) :
    errEchoes (a ++ b) = errEchoes a ++ errEchoes b := by
  simp [errEchoes]

theorem llmCallsIn_append (a b : List Event) :
    llmCallsIn (a ++ b) = llmCallsIn a ++ llmCallsIn b := by
  simp [llmCallsIn]

theorem cmdsOf_append (a b : List Event) :
    cmdsOf (a ++ b) = cmdsOf a ++ cmdsOf b := by
  simp [cmdsOf]

theorem mergesIn_nil : mergesIn [] = [] := rfl

theorem mergesIn_cons (e : Event) (evs : List Event) :
    mergesIn (e :: evs) =
      (match e with
       | Event.cmd (Cmd.gitMerge s _) => [s]
       | _ => []) ++ mergesIn evs := by
  rcases e with c | m | m | p | ⟨o, r, n⟩ | ⟨o, r, n, b⟩
  · cases c <;> simp [mergesIn]
  all_goals simp [mergesIn]

theorem errEchoes_nil : errEchoes [] = [] := rfl

theorem errEchoes_cons (e : Event) (evs : List Event) :
    errEchoes (e :: evs) =
      (match e with
       | Event.echoErr m => [m]
       | _ => []) ++ errEchoes evs := by
  rcases e <;> simp [errEchoes]

theorem llmCallsIn_nil : llmCallsIn [] = [] := rfl

theorem llmCallsIn_cons (e : Event) (evs : List Event) :
    llmCallsIn (e :: evs) =
      (match e with
       | Event.llm p => [p]
       | _ => []) ++ llmCallsIn evs := by
  rcases e <;> simp [llmCallsIn]

theorem cmdsOf_nil : cmdsOf [] = [] := rfl

theorem cmdsOf_cons (e : Event) (evs : List Event) :
    cmdsOf (e :: evs) =
      (match e with
       | Event.cmd c => [c]
       | _ => []) ++ cmdsOf evs := by
  rcases e <;> simp [cmdsOf]

theorem mergesIn_collectConflictDiff (w : World) :
    mergesIn (collectConflictDiff w).2 = [] := by
  by_cases h : w.diffU.exitCode = 0 <;>
    simp [collectConflictDiff, h, mergesIn_cons, mergesIn_append, mergesIn_nil]

theorem mergesIn_attemptMerge (w : World) (base : String) (s : MergeStrategy) :
    mergesIn (attemptMerge w base s).2 = [s] := by
  rcases hcc : collectConflictDiff w with ⟨d, evC⟩
  have hC : mergesIn evC = [] := by
    have h := mergesIn_collectConflictDiff w
    rw [hcc] at h
    exact h
  by_cases h : w.mergeExit s = 0 <;> by_cases ha : w.abortExit = 0 <;>
    simp [attemptMerge, hcc, h, ha, mergesIn_cons, mergesIn_append, mergesIn_nil, hC]

theorem mergesIn_generateConflictPatch (w : World) (d : String) (s : Settings) :
    mergesIn (generateConflictPatch w d s).2 = [] := by
  rcases ho : w.openaiPatch with e | v <;> rcases hano : w.anthropicPatch with e₂ | v₂ <;>
    by_cases h1 : pyStrip d = "" <;>
    by_cases h2 : pyTruthy s.openaiApiKey <;>
    by_cases h3 : pyTruthy s.anthropicApiKey <;>
    simp [generateConflictPatch, ho, hano, h1, h2, h3, mergesIn_cons, mergesIn_nil]

theorem mergesIn_generatePatchSuggestion (w : World) (d : String) (s : Settings) :
    mergesIn (generatePatchSuggestion w d s).2 = [] := by
  by_cases h1 : pyStrip d = "" <;>
    by_cases h2 : pyTruthy s.openaiApiKey || pyTruthy s.anthropicApiKey <;>
    simp [generatePatchSuggestion, h1, h2, mergesIn_nil, mergesIn_generateConflictPatch]

theorem mergesIn_postPrComment (w : World) (o r : String) (n : Nat)
    (t : Option String) (b : String) :
    mergesIn (postPrComment w o r n t b) = [] := by
  rcases t with _ | tk
  · simp [postPrComment, mergesIn_cons, mergesIn_nil]
  · rcases hpc : w.postComment with e | u <;>
      by_cases h : pyStrip tk = "" <;>
      simp [postPrComment, hpc, h, mergesIn_cons, mergesIn_append, mergesIn_nil]

theorem mergesIn_mergeChecksRun (w : World) (fs : List String) :
    mergesIn (mergeChecksRun w fs).2 = [] := by
  by_cases h0 : fs.isEmpty <;>
    by_cases h1 : w.preCommitExit fs = 0 <;>
    by_cases h2 : w.pytestExit = 0 <;>
    simp [mergeChecksRun, h0, h1, h2, mergesIn_cons, mergesIn_append, mergesIn_nil]

theorem mergesIn_mergeChecksCommand (w : World) (files : Option (List String)) :
    mergesIn (mergeChecksCommand w files).2 = [] := by
  have hdisc : mergesIn (mergeChecksCommand w none).2 = [] := by
    rcases hmc : mergeChecksRun w (parseGitStatus w.statusZ.stdout) with ⟨r, evR⟩
    have h := mergesIn_mergeChecksRun w (parseGitStatus w.statusZ.stdout)
    rw [hmc] at h
    by_cases hz : w.statusZ.exitCode = 0 <;>
      simp [mergeChecksCommand, collectModifiedFiles, hz, hmc, mergesIn_cons,
        mergesIn_append, mergesIn_nil, h]
  rcases files with _ | fs
  · exact hdisc
  · by_cases he : fs.isEmpty
    · have : mergeChecksCommand w (some fs) = mergeChecksCommand w none := by
        simp [mergeChecksCommand, he]
      rw [this]
      exact hdisc
    · simp [mergeChecksCommand, he, mergesIn_mergeChecksRun]

/-! ## Wrap-up and loop lemmas -/

theorem mergesIn_prCommentIfAny (w : World) (s : Settings)
    (prInfo : Option (Nat × String × String)) (body : String) :
    mergesIn (prCommentIfAny w s prInfo body) = [] := by
  rcases prInfo with _ | ⟨n, o, r⟩
  · simp [prCommentIfAny, mergesIn_nil]
  · by_cases h : !(o = "") && !(r = "") <;>
      simp [prCommentIfAny, h, mergesIn_nil, mergesIn_postPrComment]

theorem mergesIn_noPatchMsgs (s : Settings) : mergesIn (noPatchMsgs s) = [] := by
  by_cases h : pyTruthy s.openaiApiKey || pyTruthy s.anthropicApiKey <;>
    simp [noPatchMsgs, h, mergesIn_cons, mergesIn_nil]

theorem mergesIn_failureWrapUp (w : World) (s : Settings) (diffs : List String)
    (prInfo : Option (Nat × String × String)) :
    mergesIn (failureWrapUp w s diffs prInfo) = [] := by
  rcases hg : generatePatchSuggestion w (String.intercalate "\n\n" diffs) s with ⟨patch, evP⟩
  have hP : mergesIn evP = [] := by
    have h := mergesIn_generatePatchSuggestion w (String.intercalate "\n\n" diffs) s
    rw [hg] at h
    exact h
  by_cases hc : String.intercalate "\n\n" diffs = ""
  · simp [failureWrapUp, hc, mergesIn_cons, mergesIn_append, mergesIn_nil,
      mergesIn_prCommentIfAny]
  · rcases patch with _ | p
    · simp [failureWrapUp, hc, hg, mergesIn_cons, mergesIn_append, mergesIn_nil,
        mergesIn_prCommentIfAny, mergesIn_noPatchMsgs, hP]
    · by_cases hp : p = "" <;>
        simp [failureWrapUp, hc, hg, hp, mergesIn_cons, mergesIn_append, mergesIn_nil,
          mergesIn_prCommentIfAny, mergesIn_noPatchMsgs, hP]

theorem mergesIn_successWrapUp (w : World) (s : Settings) (st : MergeStrategy)
    (runChecks : Bool) (prInfo : Option (Nat × String × String)) :
    mergesIn (successWrapUp w s st runChecks prInfo).2 = [] := by
  rcases hmc : mergeChecksCommand w none with ⟨r, evC⟩
  have hC : mergesIn evC = [] := by
    have h := mergesIn_mergeChecksCommand w none
    rw [hmc] at h
    exact h
  rcases r with c | u <;> rcases runChecks <;>
    simp [successWrapUp, hmc, mergesIn_cons, mergesIn_append, mergesIn_nil,
      mergesIn_prCommentIfAny, hC]

theorem ensureCleanWorktree_ok (w : World) (h : CleanWorld w) :
    ensureCleanWorktree w = (.ok (), [.cmd .gitStatus]) := by
  obtain ⟨h1, h2, h3⟩ := h
  simp [ensureCleanWorktree, h1, h2, h3]

theorem prStepRun_none (w : World) (s : Settings) (base : Option String) :
    prStepRun w s base none = (.ok (none, base), []) := by
  simp [prStepRun, pyTruthy]

theorem attemptMerge_success (w : World) (base : String) (s : MergeStrategy)
    (h : w.mergeExit s = 0) :
    attemptMerge w base s =
      (.ok (true, none),
       [.echoOut ("Attempting merge with strategy '" ++ s.value ++ "' from " ++ base ++ "…"),
        .cmd (.gitMerge s base)]) := by
  simp [attemptMerge, h]

theorem attemptMerge_failRecover (w : World) (base : String) (s : MergeStrategy)
    (h : w.mergeExit s ≠ 0) (ha : w.abortExit = 0) :
    attemptMerge w base s =
      (.ok (false, (collectConflictDiff w).1),
       [.echoOut ("Attempting merge with strategy '" ++ s.value ++ "' from " ++ base ++ "…"),
        .cmd (.gitMerge s base),
        .echoErr ("Merge with strategy '" ++ s.value ++ "' failed (exit code " ++
          toString (w.mergeExit s) ++ ").")] ++
        (collectConflictDiff w).2 ++ [.cmd .gitMergeAbort]) := by
  rcases hcc : collectConflictDiff w with ⟨d, evC⟩
  simp [attemptMerge, h, ha, hcc]

theorem mergesIn_attemptLoop_single (w : World) (base : String) (s : MergeStrategy) :
    mergesIn (attemptLoop w base [s]).2.2 = [s] := by
  rcases ham : attemptMerge w base s with ⟨res, ev⟩
  have h := mergesIn_attemptMerge w base s
  rw [ham] at h
  rcases res with c | ⟨b, d⟩
  · simp [attemptLoop, ham, h]
  · rcases b <;> simp [attemptLoop, ham, mergesIn_append, mergesIn_nil, h]

theorem attemptLoop_cons (w : World) (base : String) (s : MergeStrategy)
    (rest : List MergeStrategy) :
    attemptLoop w base (s :: rest) =
      (match attemptMerge w base s with
       | (.error c, ev) => (.error c, [], ev)
       | (.ok (true, _), ev) => (.ok (some s), [], ev)
       | (.ok (false, d), ev) =>
         ((attemptLoop w base rest).1,
          (match d with
           | some t => t :: (attemptLoop w base rest).2.1
           | none => (attemptLoop w base rest).2.1),
          ev ++ (attemptLoop w base rest).2.2)) := by
  rcases ham : attemptMerge w base s with ⟨res, ev⟩
  rcases hal : attemptLoop w base rest with ⟨r, diffs, ev₂⟩
  rcases res with c | ⟨b, d⟩
  · simp [attemptLoop, ham]
  · rcases b <;> simp [attemptLoop, ham, hal]

theorem mergesIn_attemptLoop_pair (w : World) (base : String)
    (ha : w.abortExit = 0) :
    mergesIn (attemptLoop w base [.ours, .theirs]).2.2 =
      if w.mergeExit .ours = 0 then [.ours] else [.ours, .theirs] := by
  by_cases ho : w.mergeExit .ours = 0
  · rw [attemptLoop_cons, attemptMerge_success w base .ours ho]
    simp [ho, mergesIn_cons, mergesIn_nil]
  · rw [attemptLoop_cons, attemptMerge_failRecover w base .ours ho ha]
    simp [ho, mergesIn_cons, mergesIn_append, mergesIn_nil,
      mergesIn_collectConflictDiff, mergesIn_attemptLoop_single]

theorem mergesIn_mergeResolve (w : World) (settings : Settings) (base : Option String)
    (strategy : MergeStrategy) (runChecks : Bool) (pr : Option String)
    (hclean : CleanWorld w) :
    mergesIn (mergeResolveCommand w settings base strategy runChecks pr).2 =
      mergesIn (prStepRun w settings base pr).2 ++
      (match (prStepRun w settings base pr).1 with
       | .error _ => []
       | .ok (_, mb?) =>
         mergesIn (attemptLoop w (mb?.getD "origin/main")
           (match strategy with
            | .both => [MergeStrategy.ours, MergeStrategy.theirs]
            | s => [s])).2.2) := by
  rcases hps : prStepRun w settings base pr with ⟨pres, ev₁⟩
  rcases pres with c | ⟨prInfo, mb?⟩
  · simp [mergeResolveCommand, ensureCleanWorktree_ok w hclean, hps,
      mergesIn_append, mergesIn_cons, mergesIn_nil]
  · rcases hal : attemptLoop w (mb?.getD "origin/main")
        (match strategy with
         | .both => [MergeStrategy.ours, MergeStrategy.theirs]
         | s => [s]) with ⟨lr, diffs, ev₂⟩
    rcases lr with c | succ
    · simp [mergeResolveCommand, ensureCleanWorktree_ok w hclean, hps, hal,
        mergesIn_append, mergesIn_cons, mergesIn_nil]
    · rcases succ with _ | st
      · simp [mergeResolveCommand, ensureCleanWorktree_ok w hclean, hps, hal,
          mergesIn_append, mergesIn_cons, mergesIn_nil, mergesIn_failureWrapUp]
      · rcases hsw : successWrapUp w settings st runChecks prInfo with ⟨r₄, ev₄⟩
        have h₄ := mergesIn_successWrapUp w settings st runChecks prInfo
        rw [hsw] at h₄
        simp [mergeResolveCommand, ensureCleanWorktree_ok w hclean, hps, hal, hsw,
          mergesIn_append, mergesIn_cons, mergesIn_nil, h₄]

/-- Claim C1: for every strategy input in `{ours, theirs, both}`, when the
strategy is `both` the merge-resolve command attempts `ours` first and
attempts `theirs` only if `ours` failed, stopping at the first successful
attempt; for `ours` or `theirs` alone exactly that one strategy is attempted.
Stated over the clean-precondition worlds (where the loop is reached) in
which the abort step succeeds, as the sequence of `git merge` invocations. -/
theorem merge_strategy_order (w : World) (settings : Settings) (base : Option String)
    (runChecks : Bool) (strategy : MergeStrategy)
    (hclean : CleanWorld w) (habort : w.abortExit = 0) :
    mergesIn (mergeResolveCommand w settings base strategy runChecks none).2 =
      (match strategy with
       | .both =>
         if w.mergeExit MergeStrategy.ours = 0 then [MergeStrategy.ours]
         else [MergeStrategy.ours, MergeStrategy.theirs]
       | s => [s]) := by
  rw [mergesIn_mergeResolve w settings base strategy runChecks none hclean]
  rw [prStepRun_none]
  cases strategy <;>
    simp [mergesIn_nil, mergesIn_attemptLoop_single,
      mergesIn_attemptLoop_pair _ _ habort]

theorem merge_strategy_order_witness :
    CleanWorld worldOursFails ∧ worldOursFails.abortExit = 0 ∧
    mergesIn (mergeResolveCommand worldOursFails settingsNone (some "main")
      MergeStrategy.both false none).2 =
      [MergeStrategy.ours, MergeStrategy.theirs] := by
  refine ⟨⟨rfl, rfl, by decide⟩, rfl, ?_⟩
  have h := merge_strategy_order worldOursFails settingsNone (some "main") false
    MergeStrategy.both ⟨rfl, rfl, by decide⟩ rfl
  rw [h]
  decide

/-- Claim C2: for every working tree with uncommitted changes (non-empty
`git status --porcelain` output) or a merge already in progress
(`MERGE_HEAD` exists), the merge-resolve command exits with a non-zero code
(code 1) after printing the corresponding reason to the error stream, and no
`git merge` command is ever invoked. -/
theorem precondition_guard (w : World) (settings : Settings) (base : Option String)
    (strategy : MergeStrategy) (runChecks : Bool) (pr : Option String)
    (h : w.mergeHeadExists = true ∨
      (w.gitStatus.exitCode = 0 ∧ pyStrip w.gitStatus.stdout ≠ "")) :
    (mergeResolveCommand w settings base strategy runChecks pr).1 = .error 1 ∧
    mergesIn (mergeResolveCommand w settings base strategy runChecks pr).2 = [] ∧
    (w.mergeHeadExists = true →
      "A merge is already in progress. Complete or abort it before rerunning." ∈
        errEchoes (mergeResolveCommand w settings base strategy runChecks pr).2) ∧
    (w.mergeHeadExists = false →
      "Repository has uncommitted changes. Commit or stash them before running merge-resolve." ∈
        errEchoes (mergeResolveCommand w settings base strategy runChecks pr).2) := by
  by_cases hm : w.mergeHeadExists
  · simp [mergeResolveCommand, ensureCleanWorktree, hm, mergesIn_cons, mergesIn_nil,
      errEchoes_cons, errEchoes_nil]
  · rcases h with hmt | ⟨h₂, h₃⟩
    · exact absurd hmt hm
    · simp [mergeResolveCommand, ensureCleanWorktree, hm, h₂, h₃, mergesIn_cons,
        mergesIn_append, mergesIn_nil, errEchoes_cons, errEchoes_append, errEchoes_nil]

theorem precondition_guard_witness :
    (worldDirty.gitStatus.exitCode = 0 ∧ pyStrip worldDirty.gitStatus.stdout ≠ "") ∧
    (mergeResolveCommand worldDirty settingsNone none MergeStrategy.ours true none).1 =
      .error 1 ∧
    mergesIn (mergeResolveCommand worldDirty settingsNone none MergeStrategy.ours true none).2 =
      [] ∧
    "Repository has uncommitted changes. Commit or stash them before running merge-resolve." ∈
      errEchoes (mergeResolveCommand worldDirty settingsNone none MergeStrategy.ours true none).2 :=
  ⟨⟨by decide, by decide⟩,
   (precondition_guard worldDirty settingsNone none MergeStrategy.ours true none
      (Or.inr ⟨by decide, by decide⟩)).1,
   (precondition_guard worldDirty settingsNone none MergeStrategy.ours true none
      (Or.inr ⟨by decide, by decide⟩)).2.1,
   (precondition_guard worldDirty settingsNone none MergeStrategy.ours true none
      (Or.inr ⟨by decide, by decide⟩)).2.2.2 (by decide)⟩

theorem attemptMerge_abortFatal (w : World) (base : String) (s : MergeStrategy)
    (h : w.mergeExit s ≠ 0) (ha : w.abortExit ≠ 0) :
    attemptMerge w base s =
      (.error (orOne w.abortExit),
       [.echoOut ("Attempting merge with strategy '" ++ s.value ++ "' from " ++ base ++ "…"),
        .cmd (.gitMerge s base),
        .echoErr ("Merge with strategy '" ++ s.value ++ "' failed (exit code " ++
          toString (w.mergeExit s) ++ ").")] ++
        (collectConflictDiff w).2 ++
        [.cmd .gitMergeAbort,
         .echoErr "Failed to abort merge automatically; resolve the repository state manually."]) := by
  rcases hcc : collectConflictDiff w with ⟨d, evC⟩
  simp [attemptMerge, h, ha, hcc]

/-- Claim C3: for every failed merge attempt (non-zero `git merge` exit), the
engine captures the conflict diff (the `git diff --diff-filter=U` invocation
comes before `git merge --abort` in the event order) and then aborts; when
the abort succeeds the attempt returns failure normally, and when the abort
itself exits non-zero the attempt raises a fatal non-zero exit with a
distinct message — and at command level a fatal abort during the `ours` leg
of `both` stops the run with that code, never attempting `theirs`. -/
theorem conflict_capture_then_abort (w : World) (base : String) (s : MergeStrategy)
    (hfail : w.mergeExit s ≠ 0) :
    (∃ l₁ l₂, (attemptMerge w base s).2 = l₁ ++ Event.cmd Cmd.gitDiffU :: l₂ ∧
      Event.cmd Cmd.gitMergeAbort ∈ l₂) ∧
    (w.abortExit ≠ 0 →
      (attemptMerge w base s).1 = .error (orOne w.abortExit) ∧
      orOne w.abortExit ≠ 0 ∧
      "Failed to abort merge automatically; resolve the repository state manually." ∈
        errEchoes (attemptMerge w base s).2) ∧
    (w.abortExit = 0 →
      (attemptMerge w base s).1 = .ok (false, (collectConflictDiff w).1)) ∧
    (∀ settings baseOpt runChecks, CleanWorld w → w.abortExit ≠ 0 →
      w.mergeExit MergeStrategy.ours ≠ 0 →
      (mergeResolveCommand w settings baseOpt MergeStrategy.both runChecks none).1 =
        .error (orOne w.abortExit) ∧
      mergesIn (mergeResolveCommand w settings baseOpt MergeStrategy.both runChecks none).2 =
        [MergeStrategy.ours]) := by
  have hcmd : ∀ settings : Settings, ∀ baseOpt : Option String, ∀ runChecks : Bool,
      CleanWorld w → w.abortExit ≠ 0 → w.mergeExit MergeStrategy.ours ≠ 0 →
      (mergeResolveCommand w settings baseOpt MergeStrategy.both runChecks none).1 =
        .error (orOne w.abortExit) ∧
      mergesIn (mergeResolveCommand w settings baseOpt MergeStrategy.both runChecks none).2 =
        [MergeStrategy.ours] := by
    intro settings baseOpt runChecks hclean ha ho
    have hAM := attemptMerge_abortFatal w (baseOpt.getD "origin/main") MergeStrategy.ours ho ha
    constructor
    · simp [mergeResolveCommand, ensureCleanWorktree_ok w hclean, prStepRun_none,
        attemptLoop_cons, hAM]
    · simp [mergeResolveCommand, ensureCleanWorktree_ok w hclean, prStepRun_none,
        attemptLoop_cons, hAM, mergesIn_append, mergesIn_cons, mergesIn_nil,
        mergesIn_collectConflictDiff]
  refine ⟨?_, ?_, ?_, hcmd⟩
  · by_cases ha : w.abortExit = 0 <;> by_cases hd : w.diffU.exitCode = 0 <;>
      simp only [attemptMerge, collectConflictDiff, hfail, ha, hd, if_true, if_false,
        ite_true, ite_false, if_neg, if_pos, ne_eq, not_false_eq_true, not_true_eq_false,
        List.append_assoc, List.cons_append, List.nil_append, List.singleton_append] <;>
      exact ⟨[Event.echoOut ("Attempting merge with strategy '" ++ s.value ++ "' from " ++
          base ++ "…"), Event.cmd (Cmd.gitMerge s base),
          Event.echoErr ("Merge with strategy '" ++ s.value ++ "' failed (exit code " ++
            toString (w.mergeExit s) ++ ").")], _, rfl, by simp⟩
  · intro ha
    have hAM := attemptMerge_abortFatal w base s hfail ha
    rw [hAM]
    refine ⟨rfl, ?_, ?_⟩
    · simp [orOne, ha]
    · simp [errEchoes_cons, errEchoes_append, errEchoes_nil]
  · intro ha
    rw [attemptMerge_failRecover w base s hfail ha]

theorem conflict_capture_then_abort_witness :
    worldAbortFail.mergeExit MergeStrategy.ours ≠ 0 ∧
    (attemptMerge worldAbortFail "origin/main" MergeStrategy.ours).1 = .error 128 ∧
    (mergeResolveCommand worldAbortFail settingsNone none MergeStrategy.both true none).1 =
      .error 128 ∧
    mergesIn (mergeResolveCommand worldAbortFail settingsNone none MergeStrategy.both true none).2 =
      [MergeStrategy.ours] := by
  have h := conflict_capture_then_abort worldAbortFail "origin/main" MergeStrategy.ours
    (by decide)
  refine ⟨by decide, ?_, ?_, ?_⟩
  · simpa [orOne, worldAbortFail, worldAllFail] using (h.2.1 (by decide)).1
  · simpa [orOne, worldAbortFail, worldAllFail] using
      (h.2.2.2 settingsNone none true ⟨by decide, by decide, by decide⟩
        (by decide) (by decide)).1
  · exact (h.2.2.2 settingsNone none true ⟨by decide, by decide, by decide⟩
      (by decide) (by decide)).2

/-- Claim C5: the validation runner runs the static-check (`pre-commit`) step
iff the target file list is non-empty; with an empty list the static check is
skipped but `pytest` still runs; a non-zero static-check exit is propagated
exactly and the test step is never invoked. -/
theorem validation_runner_gating (w : World) (fs : List String) :
    (fs ≠ [] →
      Cmd.preCommit fs ∈ cmdsOf (mergeChecksCommand w (some fs)).2 ∧
      (w.preCommitExit fs ≠ 0 →
        (mergeChecksCommand w (some fs)).1 = .error (w.preCommitExit fs) ∧
        Cmd.pytest ∉ cmdsOf (mergeChecksCommand w (some fs)).2) ∧
      (w.preCommitExit fs = 0 →
        Cmd.pytest ∈ cmdsOf (mergeChecksCommand w (some fs)).2)) ∧
    (w.statusZ.exitCode = 0 → parseGitStatus w.statusZ.stdout = [] →
      (∀ gs, Cmd.preCommit gs ∉ cmdsOf (mergeChecksCommand w none).2) ∧
      Cmd.pytest ∈ cmdsOf (mergeChecksCommand w none).2) := by
  constructor
  · intro hfs
    rcases fs with _ | ⟨f, fs'⟩
    · exact absurd rfl hfs
    · by_cases hpc : w.preCommitExit (f :: fs') = 0 <;>
        by_cases hpt : w.pytestExit = 0 <;>
        simp [mergeChecksCommand, mergeChecksRun, hpc, hpt, cmdsOf_cons, cmdsOf_append,
          cmdsOf_nil]
  · intro hz hparse
    by_cases hpt : w.pytestExit = 0 <;>
      simp [mergeChecksCommand, collectModifiedFiles, mergeChecksRun, hz, hparse, hpt,
        cmdsOf_cons, cmdsOf_append, cmdsOf_nil]

theorem validation_runner_gating_witness :
    (["a.py"] ≠ ([] : List String)) ∧
    worldPreCommit3.preCommitExit ["a.py"] ≠ 0 ∧
    (mergeChecksCommand worldPreCommit3 (some ["a.py"])).1 = .error 3 ∧
    Cmd.pytest ∉ cmdsOf (mergeChecksCommand worldPreCommit3 (some ["a.py"])).2 ∧
    (∀ gs, Cmd.preCommit gs ∉ cmdsOf (mergeChecksCommand worldOk none).2) ∧
    Cmd.pytest ∈ cmdsOf (mergeChecksCommand worldOk none).2 := by
  have h₁ := (validation_runner_gating worldPreCommit3 ["a.py"]).1 (by decide)
  have h₂ := (validation_runner_gating worldOk ["x"]).2 (by decide) (by decide)
  refine ⟨by decide, by decide, ?_, (h₁.2.1 (by decide)).2, h₂.1, h₂.2⟩
  simpa [worldPreCommit3, worldOk] using (h₁.2.1 (by decide)).1

/-- Claim C6: the patch-suggestion operation returns `None` without
contacting any provider when the conflict diff is empty or whitespace-only or
when neither credential is configured; a transport or API error during the
provider request is converted into a `None` result (the functions are total —
they never raise to their caller). -/
theorem patch_suggestion_none_guards (w : World) (diff : String) (s : Settings) :
    (pyStrip diff = "" →
      generatePatchSuggestion w diff s = (none, []) ∧
      generateConflictPatch w diff s = (none, [])) ∧
    (pyTruthy s.openaiApiKey = false → pyTruthy s.anthropicApiKey = false →
      generatePatchSuggestion w diff s = (none, []) ∧
      generateConflictPatch w diff s = (none, [])) ∧
    (∀ e, w.openaiPatch = .error e → pyTruthy s.openaiApiKey = true →
      (generateConflictPatch w diff s).1 = none ∧
      (generatePatchSuggestion w diff s).1 = none) ∧
    (∀ e, w.anthropicPatch = .error e → pyTruthy s.openaiApiKey = false →
      pyTruthy s.anthropicApiKey = true →
      (generateConflictPatch w diff s).1 = none ∧
      (generatePatchSuggestion w diff s).1 = none) := by
  refine ⟨?_, ?_, ?_, ?_⟩
  · intro hd
    simp [generatePatchSuggestion, generateConflictPatch, hd]
  · intro h₁ h₂
    simp [generatePatchSuggestion, generateConflictPatch, h₁, h₂]
  · intro e he hk
    by_cases hd : pyStrip diff = "" <;>
      simp [generatePatchSuggestion, generateConflictPatch, hd, hk, he]
  · intro e he hk₁ hk₂
    by_cases hd : pyStrip diff = "" <;>
      simp [generatePatchSuggestion, generateConflictPatch, hd, hk₁, hk₂, he]

theorem patch_suggestion_none_guards_witness :
    pyStrip "   " = "" ∧
    generatePatchSuggestion worldOk "   " settingsBothKeys = (none, []) ∧
    generatePatchSuggestion worldOk "diff" settingsNone = (none, []) ∧
    worldOpenaiDown.openaiPatch = .error "api down" ∧
    (generateConflictPatch worldOpenaiDown "diff" settingsBothKeys).1 = none := by
  refine ⟨by decide, ?_, ?_, rfl, ?_⟩
  · exact ((patch_suggestion_none_guards worldOk "   " settingsBothKeys).1 (by decide)).1
  · exact ((patch_suggestion_none_guards worldOk "diff" settingsNone).2.1
      (by decide) (by decide)).1
  · exact ((patch_suggestion_none_guards worldOpenaiDown "diff" settingsBothKeys).2.2.1
      "api down" rfl (by decide)).1

/-- Claim C7: with a non-empty diff and at least one credential, the client
contacts exactly one provider; OpenAI takes precedence, and Anthropic is
never contacted when the OpenAI credential is set. -/
theorem provider_precedence (w : World) (diff : String) (s : Settings)
    (hd : pyStrip diff ≠ "") :
    (pyTruthy s.openaiApiKey = true →
      llmCallsIn (generateConflictPatch w diff s).2 = [Provider.openai]) ∧
    (pyTruthy s.openaiApiKey = false → pyTruthy s.anthropicApiKey = true →
      llmCallsIn (generateConflictPatch w diff s).2 = [Provider.anthropic]) := by
  constructor
  · intro hk
    rcases ho : w.openaiPatch with e | v <;>
      simp [generateConflictPatch, hd, hk, ho, llmCallsIn_cons, llmCallsIn_nil]
  · intro hk₁ hk₂
    rcases ha : w.anthropicPatch with e | v <;>
      simp [generateConflictPatch, hd, hk₁, hk₂, ha, llmCallsIn_cons, llmCallsIn_nil]

theorem provider_precedence_witness :
    pyStrip "diff --git a b" ≠ "" ∧
    llmCallsIn (generateConflictPatch worldOk "diff --git a b" settingsBothKeys).2 =
      [Provider.openai] ∧
    llmCallsIn (generateConflictPatch worldOk "diff --git a b" settingsAnthropic).2 =
      [Provider.anthropic] :=
  ⟨by decide,
   (provider_precedence worldOk "diff --git a b" settingsBothKeys (by decide)).1 (by decide),
   (provider_precedence worldOk "diff --git a b" settingsAnthropic (by decide)).2
     (by decide) (by decide)⟩

/-- Claim C9 (counterexample): the code's conflict collector issues a single
`git --no-pager diff --diff-filter=U` and returns only an optional diff; it
runs no separate unmerged-path listing and produces no file list, unlike the
spec's two-sub-operation `collect` contract (`collectConflictDetailsSpec`).
At a world whose diff command fails, the command traces differ and the code
returns `None` rather than a `ConflictDetails` record with an empty file
list. -/
theorem conflict_collector_counterexample :
    cmdsOf (collectConflictDiff worldDiffFail).2 = [Cmd.gitDiffU] ∧
    cmdsOf (collectConflictDetailsSpec worldDiffFail).2 =
      [Cmd.gitDiffUNameOnly, Cmd.gitDiffU] ∧
    cmdsOf (collectConflictDiff worldDiffFail).2 ≠
      cmdsOf (collectConflictDetailsSpec worldDiffFail).2 ∧
    (collectConflictDiff worldDiffFail).1 = none := by
  decide

/-- Claim C9 (amended): the conflict-diff collector is best-effort and runs
exactly one command, the diff restricted to unmerged paths
(`--diff-filter=U`); when that command exits non-zero it echoes a
`Warning:`-prefixed message and returns no diff (`None`) instead of
propagating the error, and the merge engine still proceeds to
`git merge --abort`; on success it returns the stripped diff, or `None` when
empty.  It does not list unmerged paths separately and returns no file
list. -/
theorem conflict_collector_best_effort (w : World) :
    cmdsOf (collectConflictDiff w).2 = [Cmd.gitDiffU] ∧
    (w.diffU.exitCode ≠ 0 →
      (collectConflictDiff w).1 = none ∧
      ∃ t, Event.echoErr ("Warning: " ++ t) ∈ (collectConflictDiff w).2) ∧
    (w.diffU.exitCode = 0 →
      (collectConflictDiff w).1 =
        (if pyStrip w.diffU.stdout = "" then none
         else some (pyStrip w.diffU.stdout))) ∧
    (∀ base s, w.mergeExit s ≠ 0 → w.diffU.exitCode ≠ 0 →
      Event.cmd Cmd.gitMergeAbort ∈ (attemptMerge w base s).2) := by
  refine ⟨?_, ?_, ?_, ?_⟩
  · by_cases hd : w.diffU.exitCode = 0 <;>
      simp [collectConflictDiff, hd, cmdsOf_cons, cmdsOf_append, cmdsOf_nil]
  · intro hd
    refine ⟨by simp [collectConflictDiff, hd], ?_⟩
    exact ⟨strOr (pyStrip w.diffU.stderr) "git diff failed",
      by simp [collectConflictDiff, hd]⟩
  · intro hd
    simp [collectConflictDiff, hd]
  · intro base s hm hd
    by_cases ha : w.abortExit = 0 <;>
      simp [attemptMerge, collectConflictDiff, hm, hd, ha]

theorem conflict_collector_best_effort_witness :
    worldDiffFail.diffU.exitCode ≠ 0 ∧
    (collectConflictDiff worldDiffFail).1 = none ∧
    (∃ t, Event.echoErr ("Warning: " ++ t) ∈ (collectConflictDiff worldDiffFail).2) ∧
    Event.cmd Cmd.gitMergeAbort ∈
      (attemptMerge worldDiffFail "origin/main" MergeStrategy.ours).2 := by
  have h := conflict_collector_best_effort worldDiffFail
  exact ⟨by decide, (h.2.1 (by decide)).1, (h.2.1 (by decide)).2,
    h.2.2.2 "origin/main" MergeStrategy.ours (by decide) (by decide)⟩

/-- Claim C10 (counterexample): the PR identifier parser accepts more than
the two claimed shapes — the dot of `github.com` is unescaped in the regex,
so `https://githubxcom/a/b/pull/7` (not a digit string, and not containing
`github.com` at all) is accepted and parsed as PR 7 of `a/b` instead of
producing the error message and exit 1. -/
theorem pr_identifier_counterexample :
    parsePrIdentifier "https://githubxcom/a/b/pull/7" = .ok (7, some "a", some "b") ∧
    containsSub "github.com".data "https://githubxcom/a/b/pull/7".data = false ∧
    pyIsDigit (pyStripL "https://githubxcom/a/b/pull/7".data) = false := by
  decide

/-- Claim C10 (amended): the parser accepts a (stripped) decimal digit
string, or any string whose start matches
`https?://github⟨any char⟩com/<owner>/<repo>/pull/<digits>` — the dot is
unescaped and trailing text is permitted; for every input the parser
rejects, the merge-resolve command prints
`Provide a PR number or GitHub pull request URL` to the error stream and
exits with code 1 before any fetch, checkout or merge command is invoked. -/
theorem pr_identifier_rejection (w : World) (settings : Settings) (base : Option String)
    (strategy : MergeStrategy) (runChecks : Bool) (s m : String)
    (hclean : CleanWorld w) (hs : ¬(s = ""))
    (hparse : parsePrIdentifier s = .error m) :
    m = "Provide a PR number or GitHub pull request URL" ∧
    (mergeResolveCommand w settings base strategy runChecks (some s)).1 = .error 1 ∧
    Event.echoErr "Provide a PR number or GitHub pull request URL" ∈
      (mergeResolveCommand w settings base strategy runChecks (some s)).2 ∧
    (∀ n, Cmd.gitFetchPr n ∉
      cmdsOf (mergeResolveCommand w settings base strategy runChecks (some s)).2) ∧
    (∀ b, Cmd.gitCheckout b ∉
      cmdsOf (mergeResolveCommand w settings base strategy runChecks (some s)).2) ∧
    mergesIn (mergeResolveCommand w settings base strategy runChecks (some s)).2 = [] ∧
    (∀ v : String, pyIsDigit (pyStripL v.data) = true →
      parsePrIdentifier v = .ok (digitsVal (pyStripL v.data), none, none)) ∧
    parsePrIdentifier "https://github.com/foo/bar/pull/12" =
      .ok (12, some "foo", some "bar") := by
  have hmsg : m = "Provide a PR number or GitHub pull request URL" := by
    by_cases hd : pyIsDigit (pyStripL s.data)
    · simp [parsePrIdentifier, hd] at hparse
    · rcases hm : matchPrUrl (pyStripL s.data) with _ | ⟨n, o, r⟩ <;>
        simp [parsePrIdentifier, hd, hm] at hparse
      exact hparse.symm
  have hpr : prStepRun w settings base (some s) =
      (.error 1, [.echoErr m]) := by
    simp [prStepRun, pyTruthy, hs, hparse]
  have hcmd : mergeResolveCommand w settings base strategy runChecks (some s) =
      (.error 1, [Event.cmd Cmd.gitStatus, Event.echoErr m]) := by
    simp [mergeResolveCommand, ensureCleanWorktree_ok w hclean, hpr]
  refine ⟨hmsg, ?_, ?_, ?_, ?_, ?_, ?_, by decide⟩
  · simp [hcmd]
  · simp [hcmd, hmsg]
  · intro n
    simp [hcmd, cmdsOf_cons, cmdsOf_nil]
  · intro b
    simp [hcmd, cmdsOf_cons, cmdsOf_nil]
  · simp [hcmd, mergesIn_cons, mergesIn_nil]
  · intro v hv
    simp [parsePrIdentifier, hv]

theorem pr_identifier_rejection_witness :
    parsePrIdentifier "nonsense" =
      .error "Provide a PR number or GitHub pull request URL" ∧
    (mergeResolveCommand worldOk settingsNone none MergeStrategy.ours true
      (some "nonsense")).1 = .error 1 ∧
    Event.echoErr "Provide a PR number or GitHub pull request URL" ∈
      (mergeResolveCommand worldOk settingsNone none MergeStrategy.ours true
        (some "nonsense")).2 ∧
    mergesIn (mergeResolveCommand worldOk settingsNone none MergeStrategy.ours true
      (some "nonsense")).2 = [] := by
  have h := pr_identifier_rejection worldOk settingsNone none MergeStrategy.ours true
    "nonsense" "Provide a PR number or GitHub pull request URL"
    ⟨by decide, by decide, by decide⟩ (by decide) (by decide)
  exact ⟨by decide, h.2.1, h.2.2.1, h.2.2.2.2.2.1⟩

/-! ## Substitution-driver lemmas for `reSub` -/

theorem reSubAux_empty (m : List Char → Option (Nat × List Char)) (f : Nat) :
    reSubAux m f [] = [] := by
  cases f <;> rfl

theorem reSubAux_fuel (m : List Char → Option (Nat × List Char)) :
    ∀ (f : Nat) (l : List Char) (f' : Nat), l.length ≤ f → l.length ≤ f' →
      reSubAux m f l = reSubAux m f' l := by
  intro f
  induction f with
  | zero =>
    intro l f' h₁ h₂
    have hl : l = [] := List.eq_nil_of_length_eq_zero (Nat.le_zero.mp h₁)
    subst hl
    rw [reSubAux_empty, reSubAux_empty]
  | succ f ih =>
    intro l f' h₁ h₂
    cases l with
    | nil => rw [reSubAux_empty, reSubAux_empty]
    | cons c rest =>
      cases f' with
      | zero => simp at h₂
      | succ f₂ =>
        cases hm : m (c :: rest) with
        | none =>
          simp only [reSubAux, hm]
          rw [ih rest f₂ (by simpa using h₁) (by simpa using h₂)]
        | some nr =>
          rcases nr with ⟨n, r⟩
          have hd : (rest.drop (n - 1)).length ≤ rest.length := by
            rw [List.length_drop]
            omega
          have hr : rest.length ≤ f := by simpa using h₁
          have hr₂ : rest.length ≤ f₂ := by simpa using h₂
          simp only [reSubAux, hm]
          rw [ih (rest.drop (n - 1)) f₂ (hd.trans hr) (hd.trans hr₂)]

theorem reSub_cons_none (m : List Char → Option (Nat × List Char)) (c : Char)
    (l : List Char) (h : m (c :: l) = none) :
    reSub m (c :: l) = c :: reSub m l := by
  simp only [reSub, List.length_cons, reSubAux, h]

theorem reSub_cons_some (m : List Char → Option (Nat × List Char)) (c : Char)
    (l : List Char) (n : Nat) (r : List Char) (h : m (c :: l) = some (n, r)) :
    reSub m (c :: l) = r ++ reSub m (l.drop (n - 1)) := by
  simp only [reSub, List.length_cons, reSubAux, h]
  congr 1
  apply reSubAux_fuel
  · rw [List.length_drop]
    omega
  · exact le_rfl

theorem reSub_append (m : List Char → Option (Nat × List Char)) :
    ∀ (pfx v : List Char),
      (∀ i, i < pfx.length → m (pfx.drop i ++ v) = none) →
      reSub m (pfx ++ v) = pfx ++ reSub m v := by
  intro pfx
  induction pfx with
  | nil => intro v _; simp
  | cons c rest ih =>
    intro v h
    have h₀ : m (c :: (rest ++ v)) = none := by
      have := h 0 (by simp)
      simpa using this
    rw [List.cons_append, reSub_cons_none m c (rest ++ v) h₀,
      ih v (fun i hi => by
        have := h (i + 1) (by simpa using Nat.succ_lt_succ hi)
        simpa using this)]
    rfl

theorem reSub_id_of_none (m : List Char → Option (Nat × List Char)) :
    ∀ (v : List Char), (∀ i, m (v.drop i) = none) → reSub m v = v := by
  intro v
  induction v with
  | nil => intro _; rfl
  | cons c rest ih =>
    intro h
    have h₀ : m (c :: rest) = none := by simpa using h 0
    rw [reSub_cons_none m c rest h₀, ih (fun i => by simpa using h (i + 1))]

/-! ## Character-class and literal-matching facts -/

theorem dropLit_eq_append (p : List Char) :
    ∀ (l r : List Char), dropLit p l = some r → l = p ++ r := by
  induction p with
  | nil =>
    intro l r h
    simp [dropLit] at h
    simpa using h
  | cons q qs ih =>
    intro l r h
    cases l with
    | nil => simp [dropLit] at h
    | cons c cs =>
      by_cases hc : c = q
      · subst hc
        simp only [dropLit, if_pos rfl] at h
        simpa using ih cs r h
      · simp [dropLit, hc] at h

theorem ciDropLit_mem (p : List Char) :
    ∀ (l r : List Char), ciDropLit p l = some r → ∀ c ∈ r, c ∈ l := by
  induction p with
  | nil =>
    intro l r h c hc
    simp [ciDropLit] at h
    subst h
    exact hc
  | cons q qs ih =>
    intro l r h c hc
    cases l with
    | nil => simp [ciDropLit] at h
    | cons d ds =>
      by_cases hd : d.toLower = q
      · simp only [ciDropLit, if_pos hd] at h
        exact List.mem_cons_of_mem d (ih ds r h c hc)
      · simp [ciDropLit, hd] at h

theorem isValueChar_of_ghKind (c : Char) (h : isGhKind c = true) :
    isValueChar c = true := by
  simp only [isGhKind, Bool.or_eq_true, decide_eq_true_eq] at h
  rcases h with (((rfl | rfl) | rfl) | rfl) | rfl <;> decide

theorem isValueChar_of_alpha (c : Char) (h : c.isAlpha = true) :
    isValueChar c = true := by
  simp [isValueChar, isAlnum, h]

theorem isPyWs_false_of_value (c : Char) (h : isValueChar c = true) :
    isPyWs c = false := by
  cases hw : isPyWs c with
  | false => rfl
  | true =>
    exfalso
    simp only [isPyWs, Bool.or_eq_true, decide_eq_true_eq] at hw
    rcases hw with ((((rfl | rfl) | rfl) | rfl) | rfl) | rfl <;> exact absurd h (by decide)

theorem takeWhile_eq_self_of_all (p : Char → Bool) :
    ∀ (v : List Char), (∀ c ∈ v, p c = true) → v.takeWhile p = v := by
  intro v
  induction v with
  | nil => intro _; rfl
  | cons c rest ih =>
    intro h
    have hc : p c = true := h c (List.mem_cons_self c rest)
    simp [List.takeWhile, hc, ih (fun x hx => h x (List.mem_cons_of_mem c hx))]

theorem takeWhile_ws_nil_of_value (v : List Char)
    (h : ∀ c ∈ v, isValueChar c = true) : v.takeWhile isPyWs = [] := by
  cases v with
  | nil => rfl
  | cons c rest =>
    have hc : isPyWs c = false :=
      isPyWs_false_of_value c (h c (List.mem_cons_self c rest))
    simp [List.takeWhile, hc]

/-! ## Replacement-text facts for the token matchers

Each of the five vendor-token matchers only ever produces replacement text
over the value class `[A-Za-z0-9-_.]` of length at least 8: the `_repl`
placeholders re-use the (alphanumeric) token prefix and append a `REDACTED`
marker. -/

theorem ghMatcher_repl_good (l : List Char) (n : Nat) (r : List Char)
    (h : ghMatcher l = some (n, r)) :
    (∀ c ∈ r, isValueChar c = true) ∧ 8 ≤ r.length := by
  rcases l with _ | ⟨g, l₁⟩
  · simp [ghMatcher] at h
  rcases l₁ with _ | ⟨c₂, l₂⟩
  · simp [ghMatcher] at h
  rcases l₂ with _ | ⟨c₃, l₃⟩
  · simp [ghMatcher] at h
  rcases l₃ with _ | ⟨c₄, rest⟩
  · simp [ghMatcher] at h
  by_cases hg : g = 'g'
  case neg => simp [ghMatcher, hg] at h
  by_cases hh : c₂ = 'h'
  case neg => simp [ghMatcher, hg, hh] at h
  by_cases hk : isGhKind c₃
  case neg => simp [ghMatcher, hg, hh, hk] at h
  by_cases hu : c₄ = '_'
  case neg => simp [ghMatcher, hg, hh, hk, hu] at h
  by_cases hrun : 36 ≤ runLen isAlnum rest
  case neg => simp [ghMatcher, hg, hh, hk, hu, hrun] at h
  subst hg
  subst hh
  subst hu
  simp only [ghMatcher, hk, hrun, if_pos, if_true, Option.some.injEq, Prod.mk.injEq] at h
  obtain ⟨hn, hr⟩ := h
  have e : (('g' : Char) :: 'h' :: c₃ :: '_' :: rest).take 40 =
      'g' :: 'h' :: c₃ :: '_' :: rest.take 36 := rfl
  have er : replForToken ('g' :: 'h' :: c₃ :: '_' :: rest.take 36) =
      'g' :: 'h' :: c₃ :: "_REDACTED".data := by
    simp [replForToken, dropLit, hk]
  rw [e, er] at hr
  subst hr
  constructor
  · intro c hc
    simp only [List.mem_cons] at hc
    rcases hc with rfl | rfl | h₃ | hc
    · decide
    · decide
    · subst h₃
      exact isValueChar_of_ghKind _ hk
    · rcases hc with rfl | rfl | rfl | rfl | rfl | rfl | rfl | rfl | rfl | hc
      all_goals try decide
      simp at hc
  · simp

theorem dropLit_self_append (p : List Char) :
    ∀ x, dropLit p (p ++ x) = some x := by
  induction p with
  | nil => intro x; rfl
  | cons c rest ih => intro x; simp [dropLit, ih]

theorem take_len_append (l₁ l₂ : List Char) (i : Nat) :
    (l₁ ++ l₂).take (l₁.length + i) = l₁ ++ l₂.take i := by
  induction l₁ with
  | nil => simp
  | cons c rest ih =>
    simp only [List.cons_append, List.length_cons]
    rw [Nat.add_right_comm, List.take_succ_cons, ih]

theorem githubPatMatcher_repl_good (l : List Char) (n : Nat) (r : List Char)
    (h : githubPatMatcher l = some (n, r)) :
    (∀ c ∈ r, isValueChar c = true) ∧ 8 ≤ r.length := by
  rcases hd : dropLit "github_pat_".data l with _ | rest
  · simp [githubPatMatcher, hd] at h
  by_cases h22 : 22 ≤ runLen isWordChar rest
  case neg => simp [githubPatMatcher, hd, h22] at h
  have hl := dropLit_eq_append _ _ _ hd
  subst hl
  simp only [githubPatMatcher, dropLit_self_append, h22, if_pos, if_true,
    Option.some.injEq, Prod.mk.injEq] at h
  obtain ⟨hn, hr⟩ := h
  have ht : ("github_pat_".data ++ rest).take (11 + runLen isWordChar rest) =
      "github_pat_".data ++ rest.take (runLen isWordChar rest) := by
    have := take_len_append "github_pat_".data rest (runLen isWordChar rest)
    simpa using this
  rw [ht] at hr
  have er : replForToken ("github_pat_".data ++ rest.take (runLen isWordChar rest)) =
      "github_pat_REDACTED".data := by
    simp [replForToken, dropLit, dropLit_self_append]
  rw [er] at hr
  subst hr
  constructor
  · intro c hc
    fin_cases hc <;> decide
  · decide

theorem skMatcher_repl_good (l : List Char) (n : Nat) (r : List Char)
    (h : skMatcher l = some (n, r)) :
    (∀ c ∈ r, isValueChar c = true) ∧ 8 ≤ r.length := by
  rcases hd : dropLit "sk-".data l with _ | rest
  · simp [skMatcher, hd] at h
  by_cases h32 : 32 ≤ runLen isAlnum rest
  case neg => simp [skMatcher, hd, h32] at h
  have hl := dropLit_eq_append _ _ _ hd
  subst hl
  simp only [skMatcher, dropLit_self_append, h32, if_pos, if_true,
    Option.some.injEq, Prod.mk.injEq] at h
  obtain ⟨hn, hr⟩ := h
  have ht : ("sk-".data ++ rest).take (3 + runLen isAlnum rest) =
      "sk-".data ++ rest.take (runLen isAlnum rest) := by
    have := take_len_append "sk-".data rest (runLen isAlnum rest)
    simpa using this
  rw [ht] at hr
  have er : replForToken ("sk-".data ++ rest.take (runLen isAlnum rest)) =
      "sk-REDACTED".data := by
    simp [replForToken, dropLit]
  rw [er] at hr
  subst hr
  constructor
  · intro c hc
    fin_cases hc <;> decide
  · decide

theorem xoxMatcher_repl_good (l : List Char) (n : Nat) (r : List Char)
    (h : xoxMatcher l = some (n, r)) :
    (∀ c ∈ r, isValueChar c = true) ∧ 8 ≤ r.length := by
  rcases hd : dropLit "xox".data l with _ | rest
  · simp [xoxMatcher, hd] at h
  rcases rest with _ | ⟨k, rest₁⟩
  · simp [xoxMatcher, hd] at h
  by_cases hk : k.isAlpha
  case neg => simp [xoxMatcher, hd, hk] at h
  rcases rest₁ with _ | ⟨d, rest₂⟩
  · simp [xoxMatcher, hd, hk] at h
  by_cases hdash : d = '-'
  case neg => simp [xoxMatcher, hd, hk, hdash] at h
  subst hdash
  by_cases h10 : 10 ≤ runLen isSlackChar rest₂
  case neg => simp [xoxMatcher, hd, hk, h10] at h
  have hl := dropLit_eq_append _ _ _ hd
  subst hl
  simp only [xoxMatcher, dropLit_self_append, hk, h10, if_pos, if_true,
    Option.some.injEq, Prod.mk.injEq] at h
  obtain ⟨hn, hr⟩ := h
  have hkd : ¬(k = '-') := by
    intro hh
    subst hh
    exact absurd hk (by decide)
  have ht : ("xox".data ++ k :: '-' :: rest₂).take (5 + runLen isSlackChar rest₂) =
      ['x', 'o', 'x', k, '-'] ++ rest₂.take (runLen isSlackChar rest₂) := by
    rw [show ("xox".data ++ k :: '-' :: rest₂) =
      (['x', 'o', 'x', k, '-'] ++ rest₂) from rfl]
    have := take_len_append ['x', 'o', 'x', k, '-'] rest₂ (runLen isSlackChar rest₂)
    simpa using this
  rw [ht] at hr
  have er : replForToken (['x', 'o', 'x', k, '-'] ++ rest₂.take (runLen isSlackChar rest₂)) =
      ['x', 'o', 'x', k] ++ "-REDACTED".data := by
    simp [replForToken, dropLit, List.takeWhile, hkd]
  rw [er] at hr
  subst hr
  constructor
  · intro c hc
    simp only [List.mem_append] at hc
    rcases hc with hc | hc
    · fin_cases hc
      · decide
      · decide
      · decide
      · exact isValueChar_of_alpha _ hk
    · fin_cases hc <;> decide
  · simp

theorem awsMatcher_repl_good (l : List Char) (n : Nat) (r : List Char)
    (h : awsMatcher l = some (n, r)) :
    (∀ c ∈ r, isValueChar c = true) ∧ 8 ≤ r.length := by
  rcases hd : dropLit "ASIA".data l with _ | rest
  · rcases hd₂ : dropLit "AKIA".data l with _ | rest₂
    · simp [awsMatcher, hd, hd₂] at h
    · by_cases h16 : 16 ≤ runLen isUpperDigit rest₂
      case neg => simp [awsMatcher, hd, hd₂, h16] at h
      have hl := dropLit_eq_append _ _ _ hd₂
      subst hl
      simp only [awsMatcher,
        show dropLit "ASIA".data ("AKIA".data ++ rest₂) = none from rfl,
        dropLit_self_append, h16, if_pos, if_true,
        Option.some.injEq, Prod.mk.injEq] at h
      obtain ⟨hn, hr⟩ := h
      have ht : ("AKIA".data ++ rest₂).take 20 =
          "AKIA".data ++ rest₂.take 16 := by
        simp
      rw [ht] at hr
      have er : replForToken ("AKIA".data ++ rest₂.take 16) =
          "AKIA".data ++ "_REDACTED".data := by
        simp [replForToken, dropLit, dropLit_self_append]
      rw [er] at hr
      subst hr
      constructor
      · intro c hc
        fin_cases hc <;> decide
      · decide
  · by_cases h16 : 16 ≤ runLen isUpperDigit rest
    case neg => simp [awsMatcher, hd, h16] at h
    have hl := dropLit_eq_append _ _ _ hd
    subst hl
    simp only [awsMatcher, dropLit_self_append, h16, if_pos, if_true,
      Option.some.injEq, Prod.mk.injEq] at h
    obtain ⟨hn, hr⟩ := h
    have ht : ("ASIA".data ++ rest).take 20 =
        "ASIA".data ++ rest.take 16 := by
      simp
    rw [ht] at hr
    have er : replForToken ("ASIA".data ++ rest.take 16) =
        "ASIA".data ++ "_REDACTED".data := by
      simp [replForToken, dropLit, dropLit_self_append]
    rw [er] at hr
    subst hr
    constructor
    · intro c hc
      fin_cases hc <;> decide
    · decide

/-! ## Class preservation through one substitution pass -/

theorem reSub_preserves (m : List Char → Option (Nat × List Char))
    (hm : ∀ l n r, m l = some (n, r) →
      (∀ c ∈ r, isValueChar c = true) ∧ 8 ≤ r.length) :
    ∀ (k : Nat) (v : List Char), v.length ≤ k →
      (∀ c ∈ v, isValueChar c = true) →
      (∀ c ∈ reSub m v, isValueChar c = true) ∧
        min v.length 8 ≤ (reSub m v).length := by
  intro k
  induction k with
  | zero =>
    intro v hlen hcls
    have hv : v = [] := List.eq_nil_of_length_eq_zero (Nat.le_zero.mp hlen)
    subst hv
    simp [reSub, reSubAux_empty]
  | succ k ih =>
    intro v hlen hcls
    cases v with
    | nil => simp [reSub, reSubAux_empty]
    | cons c rest =>
      have hrest : rest.length ≤ k := Nat.le_of_succ_le_succ (by simpa using hlen)
      cases hm' : m (c :: rest) with
      | none =>
        rw [reSub_cons_none m c rest hm']
        obtain ⟨h₁, h₂⟩ := ih rest hrest
          (fun x hx => hcls x (List.mem_cons_of_mem c hx))
        constructor
        · intro x hx
          rcases List.mem_cons.mp hx with rfl | hx'
          · exact hcls x (List.mem_cons_self x rest)
          · exact h₁ x hx'
        · simp only [List.length_cons]
          omega
      | some nr =>
        rcases nr with ⟨nn, r⟩
        rw [reSub_cons_some m c rest nn r hm']
        obtain ⟨hr, hrlen⟩ := hm (c :: rest) nn r hm'
        obtain ⟨h₁, h₂⟩ := ih (rest.drop (nn - 1))
          (by rw [List.length_drop]; omega)
          (fun x hx => hcls x (List.mem_cons_of_mem c (List.mem_of_mem_drop hx)))
        constructor
        · intro x hx
          rcases List.mem_append.mp hx with hx' | hx'
          · exact hr x hx'
          · exact h₁ x hx'
        · rw [List.length_append]
          omega

/-! ## The Bearer pattern never fires on whitespace-free text -/

theorem bearerMatcher_none_of_no_ws (l : List Char)
    (h : ∀ c ∈ l, isPyWs c = false) : bearerMatcher l = none := by
  rcases hb : ciDropLit "bearer".data l with _ | rest
  · simp [bearerMatcher, hb]
  · have hw : runLen isPyWs rest = 0 := by
      cases rest with
      | nil => rfl
      | cons c cs =>
        have hc : isPyWs c = false :=
          h c (ciDropLit_mem _ _ _ hb c (List.mem_cons_self c cs))
        simp [runLen, List.takeWhile, hc]
    simp [bearerMatcher, hb, hw]

theorem reSub_bearer_id (v : List Char)
    (hv : ∀ c ∈ v, isValueChar c = true) : reSub bearerMatcher v = v :=
  reSub_id_of_none _ v (fun _ =>
    bearerMatcher_none_of_no_ws _ (fun c hc =>
      isPyWs_false_of_value c (hv c (List.mem_of_mem_drop hc))))

/-! ## Matchers fail at heads other than their trigger character -/

theorem ghMatcher_none_head (c : Char) (l : List Char) (h : ¬(c = 'g')) :
    ghMatcher (c :: l) = none := by
  simp [ghMatcher, h]

theorem githubPatMatcher_none_head (c : Char) (l : List Char) (h : ¬(c = 'g')) :
    githubPatMatcher (c :: l) = none := by
  simp [githubPatMatcher, dropLit, h]

theorem skMatcher_none_head (c : Char) (l : List Char) (h : ¬(c = 's')) :
    skMatcher (c :: l) = none := by
  simp [skMatcher, dropLit, h]

theorem xoxMatcher_none_head (c : Char) (l : List Char) (h : ¬(c = 'x')) :
    xoxMatcher (c :: l) = none := by
  simp [xoxMatcher, dropLit, h]

theorem awsMatcher_none_head (c : Char) (l : List Char) (h : ¬(c = 'A')) :
    awsMatcher (c :: l) = none := by
  simp [awsMatcher, dropLit, h]

theorem bearerMatcher_none_head (c : Char) (l : List Char) (h : ¬(c.toLower = 'b')) :
    bearerMatcher (c :: l) = none := by
  simp [bearerMatcher, ciDropLit, h]

/-! ## The assignment pattern on a qualifying prefix and value -/

theorem keyMatcher_tokenKey (v : List Char) (h8 : 8 ≤ v.length)
    (hv : ∀ c ∈ v, isValueChar c = true) :
    keyMatcher (tokenKeyPfx ++ v) = some (8 + v.length, "TOKEN = ***".data) := by
  have hpost : runLen isPyWs (' ' :: v) = 1 := by
    rw [runLen, List.takeWhile_cons_of_pos (by decide), takeWhile_ws_nil_of_value v hv]
    rfl
  have hval : runLen isValueChar v = v.length := by
    rw [runLen, takeWhile_eq_self_of_all _ v hv]
  have step : keyMatcher (tokenKeyPfx ++ v) =
      (let post := runLen isPyWs (' ' :: v)
       let val := runLen isValueChar ((' ' :: v).drop post)
       if 8 ≤ val then
         some (5 + 1 + 1 + post + val,
           (tokenKeyPfx ++ v).take (5 + 1 + 1 + post) ++ "***".data)
       else none) := rfl
  rw [step]
  simp only [hpost, show ((' ' : Char) :: v).drop 1 = v from rfl, hval]
  rw [if_pos h8]
  rfl

theorem keyMatcher_apiKey (v : List Char) (h8 : 8 ≤ v.length)
    (hv : ∀ c ∈ v, isValueChar c = true) :
    keyMatcher (apiKeyPfx ++ v) = some (9 + v.length, "api_key:\t***".data) := by
  have hpost : runLen isPyWs ('\t' :: v) = 1 := by
    rw [runLen, List.takeWhile_cons_of_pos (by decide), takeWhile_ws_nil_of_value v hv]
    rfl
  have hval : runLen isValueChar v = v.length := by
    rw [runLen, takeWhile_eq_self_of_all _ v hv]
  have step : keyMatcher (apiKeyPfx ++ v) =
      (let post := runLen isPyWs ('\t' :: v)
       let val := runLen isValueChar (('\t' :: v).drop post)
       if 8 ≤ val then
         some (7 + 0 + 1 + post + val,
           (apiKeyPfx ++ v).take (7 + 0 + 1 + post) ++ "***".data)
       else none) := rfl
  rw [step]
  simp only [hpost, show (('\t' : Char) :: v).drop 1 = v from rfl, hval]
  rw [if_pos h8]
  rfl

/-! ## One family step: skip the prefix, preserve the value class -/

theorem reSub_family_step (m : List Char → Option (Nat × List Char))
    (hm : ∀ l n r, m l = some (n, r) →
      (∀ c ∈ r, isValueChar c = true) ∧ 8 ≤ r.length)
    (pfx v : List Char)
    (hnone : ∀ i, i < pfx.length → m (pfx.drop i ++ v) = none)
    (hv : ∀ c ∈ v, isValueChar c = true) (h8 : 8 ≤ v.length) :
    reSub m (pfx ++ v) = pfx ++ reSub m v ∧
      (∀ c ∈ reSub m v, isValueChar c = true) ∧ 8 ≤ (reSub m v).length := by
  obtain ⟨a, b⟩ := reSub_preserves m hm v.length v le_rfl hv
  exact ⟨reSub_append m pfx v hnone, a, by omega⟩

/-! ## Full redaction of an assignment with an arbitrary qualifying value -/

theorem redactL_tokenKey (v : List Char) (h8 : 8 ≤ v.length)
    (hv : ∀ c ∈ v, isValueChar c = true) :
    redactL (tokenKeyPfx ++ v) = "TOKEN = ***".data := by
  obtain ⟨e₁, hv₁, h₁⟩ := reSub_family_step ghMatcher ghMatcher_repl_good tokenKeyPfx v
    (by intro i hi; simp only [tokenKeyPfx, apiKeyPfx, List.length_cons, List.length_nil] at hi; interval_cases i <;> exact ghMatcher_none_head _ _ (by decide)) hv h8
  obtain ⟨e₂, hv₂, h₂⟩ := reSub_family_step githubPatMatcher githubPatMatcher_repl_good
    tokenKeyPfx (reSub ghMatcher v)
    (by intro i hi; simp only [tokenKeyPfx, apiKeyPfx, List.length_cons, List.length_nil] at hi; interval_cases i <;> exact githubPatMatcher_none_head _ _ (by decide))
    hv₁ h₁
  obtain ⟨e₃, hv₃, h₃⟩ := reSub_family_step skMatcher skMatcher_repl_good
    tokenKeyPfx (reSub githubPatMatcher (reSub ghMatcher v))
    (by intro i hi; simp only [tokenKeyPfx, apiKeyPfx, List.length_cons, List.length_nil] at hi; interval_cases i <;> exact skMatcher_none_head _ _ (by decide))
    hv₂ h₂
  obtain ⟨e₄, hv₄, h₄⟩ := reSub_family_step xoxMatcher xoxMatcher_repl_good
    tokenKeyPfx (reSub skMatcher (reSub githubPatMatcher (reSub ghMatcher v)))
    (by intro i hi; simp only [tokenKeyPfx, apiKeyPfx, List.length_cons, List.length_nil] at hi; interval_cases i <;> exact xoxMatcher_none_head _ _ (by decide))
    hv₃ h₃
  obtain ⟨e₅, hv₅, h₅⟩ := reSub_family_step awsMatcher awsMatcher_repl_good
    tokenKeyPfx (reSub xoxMatcher (reSub skMatcher (reSub githubPatMatcher (reSub ghMatcher v))))
    (by intro i hi; simp only [tokenKeyPfx, apiKeyPfx, List.length_cons, List.length_nil] at hi; interval_cases i <;> exact awsMatcher_none_head _ _ (by decide))
    hv₄ h₄
  set v₅ := reSub awsMatcher (reSub xoxMatcher (reSub skMatcher (reSub githubPatMatcher
    (reSub ghMatcher v)))) with hv₅def
  have e₆ : reSub bearerMatcher (tokenKeyPfx ++ v₅) = tokenKeyPfx ++ v₅ := by
    rw [reSub_append bearerMatcher tokenKeyPfx v₅
      (by intro i hi; simp only [tokenKeyPfx, apiKeyPfx, List.length_cons, List.length_nil] at hi; interval_cases i <;> exact bearerMatcher_none_head _ _ (by decide)),
      reSub_bearer_id v₅ hv₅]
  have e₇ : reSub keyMatcher (tokenKeyPfx ++ v₅) = "TOKEN = ***".data := by
    have hk := keyMatcher_tokenKey v₅ h₅ hv₅
    rw [show tokenKeyPfx ++ v₅ = 'T' :: (['O', 'K', 'E', 'N', ' ', '=', ' '] ++ v₅) from rfl]
      at hk ⊢
    rw [reSub_cons_some keyMatcher 'T' (['O', 'K', 'E', 'N', ' ', '=', ' '] ++ v₅)
      (8 + v₅.length) ("TOKEN = ***".data) hk]
    have hdrop : (['O', 'K', 'E', 'N', ' ', '=', ' '] ++ v₅).drop (8 + v₅.length - 1) = [] := by
      apply List.drop_eq_nil_of_le
      simp
      try omega
    rw [hdrop]
    simp [reSub, reSubAux_empty]
  show reSub keyMatcher (reSub bearerMatcher (reSub awsMatcher (reSub xoxMatcher
    (reSub skMatcher (reSub githubPatMatcher (reSub ghMatcher (tokenKeyPfx ++ v))))))) =
    "TOKEN = ***".data
  rw [e₁, e₂, e₃, e₄, e₅, e₆, e₇]

theorem redactL_apiKey (v : List Char) (h8 : 8 ≤ v.length)
    (hv : ∀ c ∈ v, isValueChar c = true) :
    redactL (apiKeyPfx ++ v) = "api_key:\t***".data := by
  obtain ⟨e₁, hv₁, h₁⟩ := reSub_family_step ghMatcher ghMatcher_repl_good apiKeyPfx v
    (by intro i hi; simp only [tokenKeyPfx, apiKeyPfx, List.length_cons, List.length_nil] at hi; interval_cases i <;> exact ghMatcher_none_head _ _ (by decide)) hv h8
  obtain ⟨e₂, hv₂, h₂⟩ := reSub_family_step githubPatMatcher githubPatMatcher_repl_good
    apiKeyPfx (reSub ghMatcher v)
    (by intro i hi; simp only [tokenKeyPfx, apiKeyPfx, List.length_cons, List.length_nil] at hi; interval_cases i <;> exact githubPatMatcher_none_head _ _ (by decide))
    hv₁ h₁
  obtain ⟨e₃, hv₃, h₃⟩ := reSub_family_step skMatcher skMatcher_repl_good
    apiKeyPfx (reSub githubPatMatcher (reSub ghMatcher v))
    (by intro i hi; simp only [tokenKeyPfx, apiKeyPfx, List.length_cons, List.length_nil] at hi; interval_cases i <;> exact skMatcher_none_head _ _ (by decide))
    hv₂ h₂
  obtain ⟨e₄, hv₄, h₄⟩ := reSub_family_step xoxMatcher xoxMatcher_repl_good
    apiKeyPfx (reSub skMatcher (reSub githubPatMatcher (reSub ghMatcher v)))
    (by intro i hi; simp only [tokenKeyPfx, apiKeyPfx, List.length_cons, List.length_nil] at hi; interval_cases i <;> exact xoxMatcher_none_head _ _ (by decide))
    hv₃ h₃
  obtain ⟨e₅, hv₅, h₅⟩ := reSub_family_step awsMatcher awsMatcher_repl_good
    apiKeyPfx (reSub xoxMatcher (reSub skMatcher (reSub githubPatMatcher (reSub ghMatcher v))))
    (by intro i hi; simp only [tokenKeyPfx, apiKeyPfx, List.length_cons, List.length_nil] at hi; interval_cases i <;> exact awsMatcher_none_head _ _ (by decide))
    hv₄ h₄
  set v₅ := reSub awsMatcher (reSub xoxMatcher (reSub skMatcher (reSub githubPatMatcher
    (reSub ghMatcher v)))) with hv₅def
  have e₆ : reSub bearerMatcher (apiKeyPfx ++ v₅) = apiKeyPfx ++ v₅ := by
    rw [reSub_append bearerMatcher apiKeyPfx v₅
      (by intro i hi; simp only [tokenKeyPfx, apiKeyPfx, List.length_cons, List.length_nil] at hi; interval_cases i <;> exact bearerMatcher_none_head _ _ (by decide)),
      reSub_bearer_id v₅ hv₅]
  have e₇ : reSub keyMatcher (apiKeyPfx ++ v₅) = "api_key:\t***".data := by
    have hk := keyMatcher_apiKey v₅ h₅ hv₅
    rw [show apiKeyPfx ++ v₅ = 'a' :: (['p', 'i', '_', 'k', 'e', 'y', ':', '\t'] ++ v₅) from rfl]
      at hk ⊢
    rw [reSub_cons_some keyMatcher 'a' (['p', 'i', '_', 'k', 'e', 'y', ':', '\t'] ++ v₅)
      (9 + v₅.length) ("api_key:\t***".data) hk]
    have hdrop : (['p', 'i', '_', 'k', 'e', 'y', ':', '\t'] ++ v₅).drop (9 + v₅.length - 1) = [] := by
      apply List.drop_eq_nil_of_le
      simp
      try omega
    rw [hdrop]
    simp [reSub, reSubAux_empty]
  show reSub keyMatcher (reSub bearerMatcher (reSub awsMatcher (reSub xoxMatcher
    (reSub skMatcher (reSub githubPatMatcher (reSub ghMatcher (apiKeyPfx ++ v))))))) =
    "api_key:\t***".data
  rw [e₁, e₂, e₃, e₄, e₅, e₆, e₇]

/-- Claim C4 (counterexample): the redactor is not idempotent.  For
`c4Input = "ghp_" ++ 36*'a' ++ 28*'b'`, the first application yields
`"ghp_REDACTED" ++ 28*'b'`, in which `REDACTED` plus the 28 alphanumerics
again matches `gh[oprsu]_[A-Za-z0-9]{36}`, so a second application redacts
further. -/
theorem redaction_idempotence_counterexample :
    redact_secrets (redact_secrets c4Input) ≠ redact_secrets c4Input := by
  decide

/-- Claim C4 (amended): `redact_secrets` is not idempotent for all strings —
a redacted GitHub token placeholder immediately followed by 28 or more
alphanumerics re-matches the GitHub token pattern
(`redact_secrets (redact_secrets c4Input) ≠ redact_secrets c4Input`).  A
second application does leave the output unchanged when the redacted form
contains no residual pattern match, as for assignment inputs with any
qualifying value, Bearer headers, and isolated GitHub/OpenAI tokens. -/
theorem redaction_idempotence_scope :
    (∀ v : List Char, 8 ≤ v.length → (∀ c ∈ v, isValueChar c = true) →
      redact_secrets (redact_secrets ⟨tokenKeyPfx ++ v⟩) =
        redact_secrets ⟨tokenKeyPfx ++ v⟩) ∧
    redact_secrets (redact_secrets "Authorization: Bearer abcdef1234567890") =
      redact_secrets "Authorization: Bearer abcdef1234567890" ∧
    redact_secrets (redact_secrets (⟨'g' :: 'h' :: 'p' :: '_' :: List.replicate 36 'a'⟩ : String)) =
      redact_secrets ⟨'g' :: 'h' :: 'p' :: '_' :: List.replicate 36 'a'⟩ ∧
    redact_secrets (redact_secrets (⟨'s' :: 'k' :: '-' :: List.replicate 32 'b'⟩ : String)) =
      redact_secrets ⟨'s' :: 'k' :: '-' :: List.replicate 32 'b'⟩ ∧
    redact_secrets (redact_secrets c4Input) ≠ redact_secrets c4Input := by
  refine ⟨?_, by decide, by decide, by decide, by decide⟩
  intro v h8 hv
  have h₁ : redact_secrets ⟨tokenKeyPfx ++ v⟩ = "TOKEN = ***" := by
    show (⟨redactL (tokenKeyPfx ++ v)⟩ : String) = "TOKEN = ***"
    rw [redactL_tokenKey v h8 hv]
  rw [h₁]
  decide

theorem redaction_idempotence_scope_witness :
    8 ≤ "abcdef123456".data.length ∧
    (∀ c ∈ "abcdef123456".data, isValueChar c = true) ∧
    redact_secrets (redact_secrets ⟨tokenKeyPfx ++ "abcdef123456".data⟩) =
      redact_secrets ⟨tokenKeyPfx ++ "abcdef123456".data⟩ := by
  refine ⟨by decide, by decide, ?_⟩
  exact redaction_idempotence_scope.1 "abcdef123456".data (by decide) (by decide)

/-- Claim C8 (counterexample): an assignment whose key itself embeds a
GitHub token is not redacted to `key ++ sep ++ "***"` with the key preserved:
the token inside the key is redacted first, so
`redact_secrets ("ghp_" ++ 36*'a' ++ "token=abcdefgh")` is
`"ghp_REDACTEDtoken=***"`, not the claimed
`"ghp_" ++ 36*'a' ++ "token" ++ "=" ++ "***"`. -/
theorem assignment_redaction_counterexample :
    redact_secrets c8KeyEmbedsToken = "ghp_REDACTEDtoken=***" ∧
    redact_secrets c8KeyEmbedsToken ≠
      ("ghp_" ++ (⟨List.replicate 36 'a'⟩ : String) ++ "token" ++ "=" ++ "***") := by
  constructor <;> decide

/-- Claim C8 (amended): for an assignment-style input whose key contains no
other secret pattern — witnessed for the shapes `TOKEN = <value>` and
`api_key:<TAB><value>` — `redact_secrets` replaces exactly the value with
`***` for every value of length at least 8 over `[A-Za-z0-9-_.]`, preserving
the key, the separator and the surrounding whitespace; in particular
`redact_secrets "TOKEN = abcdef123456" = "TOKEN = ***"`.  When the key
itself embeds another secret (the counterexample), that part of the key is
redacted as well. -/
theorem assignment_value_redaction (v : List Char) (h8 : 8 ≤ v.length)
    (hv : ∀ c ∈ v, isValueChar c = true) :
    redact_secrets ⟨tokenKeyPfx ++ v⟩ = "TOKEN = ***" ∧
    redact_secrets ⟨apiKeyPfx ++ v⟩ = "api_key:\t***" ∧
    redact_secrets "TOKEN = abcdef123456" = "TOKEN = ***" := by
  refine ⟨?_, ?_, by decide⟩
  · show (⟨redactL (tokenKeyPfx ++ v)⟩ : String) = "TOKEN = ***"
    rw [redactL_tokenKey v h8 hv]
  · show (⟨redactL (apiKeyPfx ++ v)⟩ : String) = "api_key:\t***"
    rw [redactL_apiKey v h8 hv]

theorem assignment_value_redaction_witness :
    8 ≤ "secret1234".data.length ∧
    (∀ c ∈ "secret1234".data, isValueChar c = true) ∧
    redact_secrets ⟨tokenKeyPfx ++ "secret1234".data⟩ = "TOKEN = ***" ∧
    redact_secrets ⟨apiKeyPfx ++ "secret1234".data⟩ = "api_key:\t***" := by
  refine ⟨by decide, by decide, ?_, ?_⟩
  · exact (assignment_value_redaction "secret1234".data (by decide) (by decide)).1
  · exact (assignment_value_redaction "secret1234".data (by decide) (by decide)).2.1
